import Mathlib

/-!
Flagger: binding structure fields to command-line flags.

A shallow embedding of `flagger.go` (package `flagger`) and proofs about it.

Conventions of the embedding.

* A Go function returning `(T, error)` is a Lean function returning `T × Option GoError`;
  the second component `none` is Go's `nil` error.
* Go strings are Lean strings; the code only ever inspects ASCII bytes (`','`, `'-'`,
  digits, signs), and UTF-8 never encodes a non-ASCII character with an ASCII byte, so
  working on characters instead of bytes does not change any result.
* `reflect` values are modelled by `GoValue`, struct fields by `StructField`, the
  declared type of a field by `GoType`.
* The flag registry (`DefaultFlagSet`) is the list of the registrations it holds, oldest
  first.  Every registration method of the `flag` package goes through `FlagSet.Var`,
  which panics on a flag name that begins with `-` or contains `=` (Go 1.17 and later)
  and on a flag name already defined (`varPanic`).  The methods of a user's `flag.Value`
  are taken to return.
* `strconv.ParseBool`, `strconv.ParseUint`, `strconv.ParseInt` and `strconv.Atoi` are exact
  integer algorithms of the Go standard library and are modelled below.
  `strconv.ParseFloat` and `time.ParseDuration` compute in floating point; they are
  parameters of the model (`Env`), together with the platform's `strconv.IntSize`.
-/

namespace Flagger

/-! ## Results of the Go standard library -/

/-- The error values the modelled library calls can return: the two `strconv` sentinel
errors wrapped by `*strconv.NumError`, and any other error with its message. -/
inductive GoError where
  | ErrSyntax
  | ErrRange
  | other (msg : String)
  deriving DecidableEq, Repr

/-- A `float64`, as its IEEE-754 bit pattern (`math.Float64bits`); `+0.0` has bits `0`. -/
structure Float64 where
  bits : Nat
  deriving DecidableEq, Repr

/-- The platform and the floating-point parsers of the standard library. -/
structure Env where
  /-- The constant `strconv.IntSize`: the width of `int` and `uint`, 32 or 64. -/
  IntSize : Nat
  /-- The function `strconv.ParseFloat(s, 64)`. -/
  ParseFloat : String → Float64 × Option GoError
  /-- The function `time.ParseDuration(s)`; a duration is a count of nanoseconds. -/
  ParseDuration : String → Int × Option GoError
  /-- Go has 32-bit and 64-bit platforms only. -/
  IntSize_valid : IntSize = 32 ∨ IntSize = 64

/-- The function `strconv.ParseBool`. -/
def ParseBool (str : String) : Bool × Option GoError :=
  if str = "1" ∨ str = "t" ∨ str = "T" ∨ str = "TRUE" ∨ str = "true" ∨ str = "True" then
    (true, none)
  else if str = "0" ∨ str = "f" ∨ str = "F" ∨ str = "FALSE" ∨ str = "false" ∨ str = "False" then
    (false, none)
  else
    (false, some .ErrSyntax)

/-- The digit value `strconv.ParseUint` gives to a byte: `0`-`9`, then letters of either
case from 10 on; `none` for any other byte. -/
def digitVal (c : Char) : Option Nat :=
  if 48 ≤ c.toNat ∧ c.toNat ≤ 57 then some (c.toNat - 48)
  else if 97 ≤ c.toNat ∧ c.toNat ≤ 122 then some (c.toNat - 97 + 10)
  else if 65 ≤ c.toNat ∧ c.toNat ≤ 90 then some (c.toNat - 65 + 10)
  else none

/-- The cutoff of `strconv.ParseUint` for base 10: the smallest number whose product with
10 exceeds `maxUint64`. -/
def cutoff10 : Nat := (2 ^ 64 - 1) / 10 + 1

/-- The digit loop of `strconv.ParseUint` for base 10, on the bytes still to read and the
`uint64` accumulated so far. -/
def parseUintLoop (maxVal : Nat) : List Char → Nat → Nat × Option GoError
  | [], n => (n, none)
  | c :: cs, n =>
    match digitVal c with
    | none => (0, some .ErrSyntax)
    | some d =>
      if d ≥ 10 then (0, some .ErrSyntax)
      else if n ≥ cutoff10 then (maxVal, some .ErrRange)
      else
        let n1 := (n * 10 + d) % 2 ^ 64
        if n1 < n * 10 ∨ n1 > maxVal then (maxVal, some .ErrRange)
        else parseUintLoop maxVal cs n1

/-- The function `strconv.ParseUint(s, 10, bitSize)`; `bitSize` 0 means `IntSize`. -/
def ParseUint (env : Env) (s : String) (bitSize : Nat) : Nat × Option GoError :=
  if s = "" then (0, some .ErrSyntax)
  else
    let bitSize := if bitSize = 0 then env.IntSize else bitSize
    if bitSize > 64 then (0, some (.other "invalid bit size"))
    else parseUintLoop (2 ^ bitSize - 1) s.data 0

/-- The function `strconv.ParseInt(s, 10, bitSize)`; `bitSize` 0 means `IntSize`. -/
def ParseInt (env : Env) (s : String) (bitSize : Nat) : Int × Option GoError :=
  if s = "" then (0, some .ErrSyntax)
  else
    let neg := s.data.head? = some '-'
    let rest := if s.data.head? = some '+' ∨ s.data.head? = some '-' then s.data.tail else s.data
    match ParseUint env (String.mk rest) bitSize with
    | (_, some .ErrSyntax) => (0, some .ErrSyntax)
    | (_, some (.other msg)) => (0, some (.other msg))
    | (un, _) =>
      let bitSize := if bitSize = 0 then env.IntSize else bitSize
      let cutoff := 2 ^ (bitSize - 1)
      if ¬ neg ∧ un ≥ cutoff then ((cutoff : Int) - 1, some .ErrRange)
      else if neg ∧ un > cutoff then (-(cutoff : Int), some .ErrRange)
      else if neg then (-(un : Int), none)
      else ((un : Int), none)

/-- The function `strconv.Atoi(s)`, which is `ParseInt(s, 10, 0)` converted to `int`. -/
def Atoi (env : Env) (s : String) : Int × Option GoError :=
  ParseInt env s 0

/-! ## The default-value decoders (`flagger.go`, lines 19-74) -/

def boolDefValue (str : String) : Bool × Option GoError :=
  if str = "" then (false, none)
  else ParseBool str

def intDefValue (env : Env) (str : String) : Int × Option GoError :=
  if str = "" then (0, none)
  else Atoi env str

def int64DefValue (env : Env) (str : String) : Int × Option GoError :=
  if str = "" then (0, none)
  else ParseInt env str 64

def uintDefValue (env : Env) (str : String) : Nat × Option GoError :=
  if str = "" then (0, none)
  else
    let (ui, err) := ParseUint env str 0
    (ui % 2 ^ env.IntSize, err)

def uint64DefValue (env : Env) (str : String) : Nat × Option GoError :=
  if str = "" then (0, none)
  else ParseUint env str 64

def float64DefValue (env : Env) (str : String) : Float64 × Option GoError :=
  if str = "" then (⟨0⟩, none)
  else env.ParseFloat str

def durationDefValue (env : Env) (str : String) : Int × Option GoError :=
  if str = "" then (0, none)
  else env.ParseDuration str

/-- A platform for concrete evaluations: 64-bit `int`, and the two floating-point parsers
given by their results on the literals of the repository's tests (`1.2`, `42s`); every
other literal is reported as a syntax error, which is right for the malformed literals of
the tests (`...`, `42ss`) and for `42`, a duration without unit, and is not meant to
describe the library elsewhere. -/
def testEnv : Env where
  IntSize := 64
  ParseFloat := fun s =>
    if s = "1.2" then (⟨0x3FF3333333333333⟩, none) else (⟨0⟩, some .ErrSyntax)
  ParseDuration := fun s =>
    if s = "42s" then (42000000000, none) else (0, some (.other "time: invalid duration"))
  IntSize_valid := Or.inr rfl

/-! ## The `reflect` data model -/

/-- The kinds of `reflect.Kind`. -/
inductive Kind where
  | Invalid | Bool | Int | Int8 | Int16 | Int32 | Int64
  | Uint | Uint8 | Uint16 | Uint32 | Uint64 | Uintptr
  | Float32 | Float64 | Complex64 | Complex128
  | Array | Chan | Func | Interface | Map | Ptr | Slice | String | Struct | UnsafePointer
  deriving DecidableEq, Repr

/-- The declared type of a struct field.  The first eight constructors are the types the
kind switch of `Flag` asserts pointers to: the predeclared `bool`, `int`, `int64`, `uint`,
`uint64`, `float64`, `string`, and `time.Duration`.  Every other type is `other`, given
by what the code observes of it: the text of `Type.String()`, its kind, and whether a
pointer to it implements `flag.Value`. -/
inductive GoType where
  | bool | int | int64 | uint | uint64 | float64 | string
  | duration
  | other (str : String) (kind : Kind) (implementsValue : Bool)
  deriving DecidableEq, Repr

/-- The method `reflect.Type.Kind`. -/
def GoType.Kind : GoType → Kind
  | .bool => .Bool
  | .int => .Int
  | .int64 => .Int64
  | .uint => .Uint
  | .uint64 => .Uint64
  | .float64 => .Float64
  | .string => .String
  | .duration => .Int64
  | .other _ k _ => k

/-- The method `reflect.Type.String`. -/
def GoType.String : GoType → String
  | .bool => "bool"
  | .int => "int"
  | .int64 => "int64"
  | .uint => "uint"
  | .uint64 => "uint64"
  | .float64 => "float64"
  | .string => "string"
  | .duration => "time.Duration"
  | .other s _ _ => s

/-- Whether a pointer to a value of the type implements `flag.Value`, which decides the
type assertion `value.(flag.Value)`.  Pointers to the predeclared types have no methods,
and `*time.Duration` has no `Set` method. -/
def GoType.implementsValue : GoType → Bool
  | .other _ _ b => b
  | _ => false

/-- One field of the structure, as the loop of `Flag` sees it: `field.Name`,
`field.Type` (here `Typ`), the value of `field.Tag.Get(DefaultFlagTag)` and `fieldValue.CanSet()`. -/
structure StructField where
  Name : String
  Typ : GoType
  Tag : String
  CanSet : Bool
  deriving DecidableEq, Repr

/-- The argument of `Flag`, an `interface{}`: the untyped `nil`, a nil pointer, a pointer
to a value, a structure with its fields in declaration order, or a value of any other
kind.  Under a pointer, `nilInterface` is an interface-typed variable holding `nil`. -/
inductive GoValue where
  | nilInterface
  | nilPointer
  | pointer (elem : GoValue)
  | struct (fields : List StructField)
  | scalar (kind : Kind)
  deriving Repr

/-- The method `reflect.Value.Kind`. -/
def GoValue.Kind : GoValue → Kind
  | .nilInterface => .Interface
  | .nilPointer => .Ptr
  | .pointer _ => .Ptr
  | .struct _ => .Struct
  | .scalar k => k

/-- The loop `for v.Kind() == reflect.Ptr { v = v.Elem() }`.  The element of a nil
pointer is the zero `reflect.Value`, whose kind is `Invalid`. -/
def derefAll : GoValue → GoValue
  | .pointer elem => derefAll elem
  | .nilPointer => .scalar .Invalid
  | v => v

/-! ## The registry and the results of `Flag` -/

/-- One call on `DefaultFlagSet`, named after the method called.  `target` is the name of
the field whose address is passed (field names of one structure are distinct), `name`
the flag name, `value` the default and `usage` the usage text. -/
inductive Registration where
  | Var (target name usage : String)
  | BoolVar (target name : String) (value : Bool) (usage : String)
  | IntVar (target name : String) (value : Int) (usage : String)
  | Int64Var (target name : String) (value : Int) (usage : String)
  | DurationVar (target name : String) (value : Int) (usage : String)
  | UintVar (target name : String) (value : Nat) (usage : String)
  | Uint64Var (target name : String) (value : Nat) (usage : String)
  | Float64Var (target name : String) (value : Float64) (usage : String)
  | StringVar (target name : String) (value : String) (usage : String)
  deriving DecidableEq, Repr

/-- The field whose address a registration binds. -/
def Registration.target : Registration → String
  | .Var t _ _ | .BoolVar t _ _ _ | .IntVar t _ _ _ | .Int64Var t _ _ _
  | .DurationVar t _ _ _ | .UintVar t _ _ _ | .Uint64Var t _ _ _
  | .Float64Var t _ _ _ | .StringVar t _ _ _ => t

/-- The flag name of a registration. -/
def Registration.name : Registration → String
  | .Var _ n _ | .BoolVar _ n _ _ | .IntVar _ n _ _ | .Int64Var _ n _ _
  | .DurationVar _ n _ _ | .UintVar _ n _ _ | .Uint64Var _ n _ _
  | .Float64Var _ n _ _ | .StringVar _ n _ _ => n

/-- The usage text of a registration. -/
def Registration.usage : Registration → String
  | .Var _ _ u | .BoolVar _ _ _ u | .IntVar _ _ _ u | .Int64Var _ _ _ u
  | .DurationVar _ _ _ u | .UintVar _ _ _ u | .Uint64Var _ _ _ u
  | .Float64Var _ _ _ u | .StringVar _ _ _ u => u

/-- The registry: the registrations it holds, oldest first. -/
abbrev FlagSet := List Registration

/-- The panics of `flag.FlagSet.Var`, with the flag name of the call. -/
inductive RegistryPanic where
  /-- The panic `flag %q begins with -`. -/
  | beginsWithDash (name : String)
  /-- The panic `flag %q contains =`. -/
  | containsEquals (name : String)
  /-- The panic `flag redefined: %s`. -/
  | redefined (name : String)
  deriving DecidableEq, Repr

/-- The checks of `flag.FlagSet.Var` on the flag name, in the order of the library:
`strings.HasPrefix(name, "-")`, `strings.Contains(name, "=")`, then the look-up of the
name among the flags already defined.  The result is the panic, if any. -/
def varPanic (regs : FlagSet) (name : String) : Option RegistryPanic :=
  if name.data.head? = some '-' then some (.beginsWithDash name)
  else if '=' ∈ name.data then some (.containsEquals name)
  else if name ∈ regs.map Registration.name then some (.redefined name)
  else none

/-- The errors `Flag` builds with `fmt.Errorf`, one constructor per format string, with
the arguments of the call. -/
inductive FlagError where
  /-- The error `flagger: Flag nil structure`. -/
  | nilStructure
  /-- The error `flagger: %q not a pointer`, with the kind. -/
  | notPointer (kind : Kind)
  /-- The error `flagger: %q not a structure`, with the kind. -/
  | notStructure (kind : Kind)
  /-- The error `flagger: could not get <what> default value for %q: %s`, with the word
  of the format, the flag name and the decoder's error. -/
  | badDefault (what : String) (flagName : String) (err : GoError)
  /-- The error `flagger: Flag unsupported kind %q for field %q`, with the kind and the
  field's name. -/
  | unsupportedKind (kind : Kind) (fieldName : String)
  deriving DecidableEq, Repr

/-- How one iteration of the field loop ends. -/
inductive Step where
  /-- The iteration ends with `continue` before any registration. -/
  | skip
  /-- The iteration issues one registration and goes on to the next field. -/
  | register (r : Registration)
  /-- The iteration returns an error from `Flag`. -/
  | fail (e : FlagError)
  /-- A pointer type assertion of the kind switch fails, which panics. -/
  | panic
  deriving DecidableEq, Repr

/-- How a call of `Flag` ends: it returns `nil`, returns an error, panics on a failed
pointer type assertion of the kind switch (`panic`), or panics inside a registration
call of the registry (`registryPanic`). -/
inductive Outcome where
  | nil
  | error (e : FlagError)
  | panic
  | registryPanic (p : RegistryPanic)
  deriving DecidableEq, Repr

/-! ## `Flag` (`flagger.go`, lines 77-194) -/

/-- The function `strings.Split(s, ",")` on the characters of `s`: the pieces between
the commas, in order; one piece more than there are commas. -/
def splitComma : List Char → List (List Char)
  | [] => [[]]
  | c :: cs =>
    if c = ',' then [] :: splitComma cs
    else
      match splitComma cs with
      | [] => [[c]]
      | piece :: pieces => (c :: piece) :: pieces

/-- The call `strings.Split(tag, ",")`. -/
def Split (tag : String) : List String :=
  (splitComma tag.data).map String.mk

/-- The flag options of a field (lines 113-127): flag name, default literal, usage. -/
structure Options where
  flagName : String
  flagDefValue : String
  flagUsage : String
  deriving DecidableEq, Repr

/-- Lines 113-127: the options start as the field's name and two empty strings, and a
non-empty tag overrides them by position. -/
def flagOptions (fieldName tag : String) : Options :=
  let init : Options := ⟨fieldName, "", ""⟩
  if tag ≠ "" then
    let opts := Split tag
    let o1 := if opts.length ≥ 1 then { init with flagName := opts.getD 0 "" } else init
    let o2 := if opts.length ≥ 2 then { o1 with flagDefValue := opts.getD 1 "" } else o1
    if opts.length ≥ 3 then { o2 with flagUsage := opts.getD 2 "" } else o2
  else init

/-- The kind switch (lines 138-190) for a field that is not a `flag.Value`: decode
the default, then assert the pointer type and register.  An assertion `value.(*T)`
holds exactly when the field's declared type is `T`. -/
def flagKind (env : Env) (field : StructField) (o : Options) : Step :=
  match field.Typ.Kind with
  | .Bool =>
    match boolDefValue o.flagDefValue with
    | (_, some err) => .fail (.badDefault "boolean" o.flagName err)
    | (defValue, none) =>
      if field.Typ = .bool then .register (.BoolVar field.Name o.flagName defValue o.flagUsage)
      else .panic
  | .Int =>
    match intDefValue env o.flagDefValue with
    | (_, some err) => .fail (.badDefault "int" o.flagName err)
    | (defValue, none) =>
      if field.Typ = .int then .register (.IntVar field.Name o.flagName defValue o.flagUsage)
      else .panic
  | .Int64 =>
    if field.Typ.String = "time.Duration" then
      match durationDefValue env o.flagDefValue with
      | (_, some err) => .fail (.badDefault "duration" o.flagName err)
      | (defValue, none) =>
        if field.Typ = .duration then
          .register (.DurationVar field.Name o.flagName defValue o.flagUsage)
        else .panic
    else
      match int64DefValue env o.flagDefValue with
      | (_, some err) => .fail (.badDefault "int64" o.flagName err)
      | (defValue, none) =>
        if field.Typ = .int64 then
          .register (.Int64Var field.Name o.flagName defValue o.flagUsage)
        else .panic
  | .Uint =>
    match uintDefValue env o.flagDefValue with
    | (_, some err) => .fail (.badDefault "uint" o.flagName err)
    | (defValue, none) =>
      if field.Typ = .uint then .register (.UintVar field.Name o.flagName defValue o.flagUsage)
      else .panic
  | .Uint64 =>
    match uint64DefValue env o.flagDefValue with
    | (_, some err) => .fail (.badDefault "uint64" o.flagName err)
    | (defValue, none) =>
      if field.Typ = .uint64 then
        .register (.Uint64Var field.Name o.flagName defValue o.flagUsage)
      else .panic
  | .Float64 =>
    match float64DefValue env o.flagDefValue with
    | (_, some err) => .fail (.badDefault "float64" o.flagName err)
    | (defValue, none) =>
      if field.Typ = .float64 then
        .register (.Float64Var field.Name o.flagName defValue o.flagUsage)
      else .panic
  | .String =>
    if field.Typ = .string then
      .register (.StringVar field.Name o.flagName o.flagDefValue o.flagUsage)
    else .panic
  | kind => .fail (.unsupportedKind kind field.Name)

/-- The body of the field loop (lines 98-190) for one field. -/
def flagField (env : Env) (field : StructField) : Step :=
  if ¬ field.CanSet then .skip
  else if field.Tag = "-" then .skip
  else
    let o := flagOptions field.Name field.Tag
    if field.Typ.implementsValue then .register (.Var field.Name o.flagName o.flagUsage)
    else flagKind env field o

/-- The field loop (lines 97-193) over the fields still to visit, from the registry so
far: the outcome of `Flag` and the registry it leaves.  A registration call either
panics in `FlagSet.Var` or adds the flag to the registry. -/
def flagFields (env : Env) : List StructField → FlagSet → Outcome × FlagSet
  | [], regs => (.nil, regs)
  | field :: rest, regs =>
    match flagField env field with
    | .skip => flagFields env rest regs
    | .register r =>
      match varPanic regs r.name with
      | some p => (.registryPanic p, regs)
      | none => flagFields env rest (regs ++ [r])
    | .fail e => (.error e, regs)
    | .panic => (.panic, regs)

/-- The function `Flag`, from the argument and the registry before the call to the
outcome and the registry after it. -/
def Flag (env : Env) (s : GoValue) (regs : FlagSet) : Outcome × FlagSet :=
  match s with
  | .nilInterface => (.error .nilStructure, regs)
  | s =>
    if s.Kind ≠ .Ptr then (.error (.notPointer s.Kind), regs)
    else
      let v := derefAll s
      if v.Kind ≠ .Struct then (.error (.notStructure v.Kind), regs)
      else
        match v with
        | .struct fields => flagFields env fields regs
        | _ => (.error (.notStructure v.Kind), regs)


/-! ## Structures for concrete evaluations -/

/-- The structure of the first test: one field of each supported type, without tags. -/
def untaggedFields : List StructField :=
  [⟨"B", .bool, "", true⟩, ⟨"I", .int, "", true⟩, ⟨"I64", .int64, "", true⟩,
   ⟨"Ui", .uint, "", true⟩, ⟨"Ui64", .uint64, "", true⟩, ⟨"F", .float64, "", true⟩,
   ⟨"S", .string, "", true⟩, ⟨"T", .duration, "", true⟩]

/-- The structure of the test of a malformed boolean default. -/
def badBoolFields : List StructField :=
  [⟨"B", .bool, "bool,tru,boolean value", true⟩]

/-- The structure of the test of an unsupported type, a pointer to a string. -/
def unsupportedFields : List StructField :=
  [⟨"UnsupportedType", .other "*string" .Ptr false, "unsupported", true⟩]

/-- A structure whose second field has a malformed boolean default, after an `int`
field and a field tagged `-`. -/
def lateFailureFields : List StructField :=
  [⟨"I", .int, "i,7,desc", true⟩, ⟨"X", .string, "-", true⟩,
   ⟨"B", .bool, "bool,tru,desc", true⟩, ⟨"S", .string, "s,,desc", true⟩]

/-- A structure whose two `int` fields ask for the same flag name `x`. -/
def redefinedFields : List StructField :=
  [⟨"A", .int, "x,1,a", true⟩, ⟨"B", .int, "x,2,b", true⟩]

/-- A structure whose first field takes, by its tag, the name of the second field. -/
def shadowedFields : List StructField :=
  [⟨"A", .int, "B", true⟩, ⟨"B", .int, "", true⟩]

/-! ## Definitions used to state the properties -/

/-- A field the loop passes over: not settable, or tagged exactly `-`. -/
def skipped (f : StructField) : Bool :=
  !f.CanSet || f.Tag == "-"

/-- The fields of the structure a value reaches through zero or more pointers. -/
def structBehind : GoValue → Option (List StructField)
  | .pointer elem => structBehind elem
  | .struct fields => some fields
  | _ => none

/-- The fields of the structure a value reaches through one or more pointers: the
valid targets of `Flag`. -/
def structTarget : GoValue → Option (List StructField)
  | .pointer elem => structBehind elem
  | _ => none

/-- The errors of target validation (lines 78-93). -/
def FlagError.isInvalidTarget : FlagError → Bool
  | .nilStructure | .notPointer _ | .notStructure _ => true
  | _ => false

/-- The kinds the kind switch has a case for. -/
def supportedKind (k : Kind) : Bool :=
  k == .Bool || k == .Int || k == .Int64 || k == .Uint || k == .Uint64 || k == .Float64 ||
    k == .String

/-- What a registration says of the default, for a field of declared type `t` whose tag
gives the default literal `lit`: the method called is the one of the type, and the value
passed as default is what the type's decoder returns for `lit` with a `nil` error (the
literal itself for a string; `Var` takes no default). -/
def DecodedDefault (env : Env) (t : GoType) (lit : String) : Registration → Prop
  | .Var _ _ _ => t.implementsValue = true
  | .BoolVar _ _ v _ => t = .bool ∧ boolDefValue lit = (v, none)
  | .IntVar _ _ v _ => t = .int ∧ intDefValue env lit = (v, none)
  | .Int64Var _ _ v _ => t = .int64 ∧ int64DefValue env lit = (v, none)
  | .DurationVar _ _ v _ => t = .duration ∧ durationDefValue env lit = (v, none)
  | .UintVar _ _ v _ => t = .uint ∧ uintDefValue env lit = (v, none)
  | .Uint64Var _ _ v _ => t = .uint64 ∧ uint64DefValue env lit = (v, none)
  | .Float64Var _ _ v _ => t = .float64 ∧ float64DefValue env lit = (v, none)
  | .StringVar _ _ v _ => t = .string ∧ v = lit

/-- A registration that binds the field `f` and carries the flag name, the usage and the
decoded default of the tag of `f`. -/
def Carries (env : Env) (f : StructField) (r : Registration) : Prop :=
  r.target = f.Name ∧
  r.name = (flagOptions f.Name f.Tag).flagName ∧
  r.usage = (flagOptions f.Name f.Tag).flagUsage ∧
  DecodedDefault env f.Typ (flagOptions f.Name f.Tag).flagDefValue r

/-- The registration of a field of one of the eight supported types under its own name,
with the zero value of its type as default and an empty usage. -/
def zeroRegistration (f : StructField) : Option Registration :=
  match f.Typ with
  | .bool => some (.BoolVar f.Name f.Name false "")
  | .int => some (.IntVar f.Name f.Name 0 "")
  | .int64 => some (.Int64Var f.Name f.Name 0 "")
  | .uint => some (.UintVar f.Name f.Name 0 "")
  | .uint64 => some (.Uint64Var f.Name f.Name 0 "")
  | .float64 => some (.Float64Var f.Name f.Name ⟨0⟩ "")
  | .string => some (.StringVar f.Name f.Name "" "")
  | .duration => some (.DurationVar f.Name f.Name 0 "")
  | .other _ _ _ => none

/-- The error, if any, of the decoder of the kind of a type on a literal: the duration
decoder for a type of kind `int64` that prints as `time.Duration`, the 64-bit integer
decoder for any other type of kind `int64`; strings and the kinds without a decoder give
no error. -/
def decoderError (env : Env) (t : GoType) (lit : String) : Option GoError :=
  match t.Kind with
  | .Bool => (boolDefValue lit).2
  | .Int => (intDefValue env lit).2
  | .Int64 =>
    if t.String = "time.Duration" then (durationDefValue env lit).2
    else (int64DefValue env lit).2
  | .Uint => (uintDefValue env lit).2
  | .Uint64 => (uint64DefValue env lit).2
  | .Float64 => (float64DefValue env lit).2
  | _ => none

/-- The flag name as the specification words it, to compare with `flagOptions`:
segment 0 of the tag when it is present and not empty, the field's identifier
otherwise. -/
def specFlagName (fieldName tag : String) : String :=
  match (Split tag)[0]? with
  | some seg => if seg ≠ "" then seg else fieldName
  | none => fieldName

/-- The declared type is one of the eight types the kind switch asserts pointers to: the
predeclared type of its kind, or `time.Duration`. -/
def exactType : GoType → Bool
  | .other _ _ _ => false
  | _ => true

/-- A decimal digit, `0` to `9`. -/
def isDecimal (c : Char) : Bool :=
  48 ≤ c.toNat && c.toNat ≤ 57

/-- The number that the digits `cs` write in base 10 after the number `n`. -/
def decimalValueFrom (n : Nat) (cs : List Char) : Nat :=
  cs.foldl (fun acc c => acc * 10 + (c.toNat - 48)) n

/-- The number a string of decimal digits writes in base 10. -/
def decimalValue (cs : List Char) : Nat :=
  decimalValueFrom 0 cs

/-! ## Splitting the tag -/

theorem splitComma_ne_nil (cs : List Char) : splitComma cs ≠ [] := by
  cases cs with
  | nil => simp [splitComma]
  | cons c cs =>
    unfold splitComma
    split
    · simp
    · split <;> simp

theorem splitComma_no_comma (cs : List Char) : ∀ piece ∈ splitComma cs, ',' ∉ piece := by
  induction cs with
  | nil => simp [splitComma]
  | cons c cs ih =>
    unfold splitComma
    split
    · intro piece hp
      rcases List.mem_cons.1 hp with h | h
      · simp [h]
      · exact ih piece h
    · rename_i hc
      split
      · intro piece hp
        simp only [List.mem_singleton] at hp
        subst hp
        simpa using Ne.symm hc
      · rename_i p ps heq
        intro piece hp
        rw [heq] at ih
        rcases List.mem_cons.1 hp with h | h
        · subst h
          have := ih p (List.mem_cons_self _ _)
          simp only [List.mem_cons, not_or]
          exact ⟨Ne.symm hc, this⟩
        · exact ih piece (List.mem_cons_of_mem _ h)

theorem splitComma_join (cs : List Char) : [','].intercalate (splitComma cs) = cs := by
  induction cs with
  | nil => simp [splitComma, List.intercalate]
  | cons c cs ih =>
    unfold splitComma
    split
    · rename_i hc
      have hne := splitComma_ne_nil cs
      cases hs : splitComma cs with
      | nil => exact absurd hs hne
      | cons p ps =>
        rw [hs] at ih
        simp only [List.intercalate, List.intersperse, List.flatten] at ih ⊢
        simp [hc, ih]
    · split
      · rename_i heq
        exact absurd heq (splitComma_ne_nil cs)
      · rename_i p ps heq
        rw [heq] at ih
        cases ps with
        | nil =>
          simp only [List.intercalate, List.intersperse, List.flatten] at ih ⊢
          simpa using ih
        | cons q qs =>
          simp only [List.intercalate, List.intersperse, List.flatten] at ih ⊢
          simpa using ih

theorem Split_length_pos (tag : String) : 1 ≤ (Split tag).length := by
  unfold Split
  rw [List.length_map]
  exact List.length_pos.2 (splitComma_ne_nil _)

theorem flagOptions_of_take (fieldName tag tag2 : String) (h : tag ≠ "") (h2 : tag2 ≠ "")
    (ht : (Split tag2).take 3 = (Split tag).take 3) :
    flagOptions fieldName tag2 = flagOptions fieldName tag := by
  unfold flagOptions
  simp only [h, h2, ne_eq, not_false_eq_true, if_true]
  rcases hs : Split tag with _ | ⟨a, _ | ⟨b, _ | ⟨c, r⟩⟩⟩ <;>
    rcases hs2 : Split tag2 with _ | ⟨a2, _ | ⟨b2, _ | ⟨c2, r2⟩⟩⟩ <;>
    rw [hs, hs2] at ht <;> simp_all

/-! ## The field loop -/

theorem derefAll_of_structBehind (v : GoValue) (fields : List StructField)
    (h : structBehind v = some fields) : derefAll v = .struct fields := by
  induction v with
  | pointer elem ih => exact ih h
  | struct fs =>
    simp only [structBehind, Option.some.injEq] at h
    simp [derefAll, h]
  | nilInterface => simp [structBehind] at h
  | nilPointer => simp [structBehind] at h
  | scalar k => simp [structBehind] at h

theorem derefAll_of_structBehind_none (v : GoValue) (h : structBehind v = none) :
    ∀ fields, derefAll v ≠ .struct fields := by
  induction v with
  | pointer elem ih => exact ih h
  | struct fs => simp [structBehind] at h
  | nilInterface => intro fields; simp [derefAll]
  | nilPointer => intro fields; simp [derefAll]
  | scalar k => intro fields; simp [derefAll]

/-- On a valid target `Flag` is the field loop over the fields of the structure. -/
theorem Flag_of_structTarget (env : Env) (s : GoValue) (fields : List StructField)
    (regs : FlagSet) (h : structTarget s = some fields) :
    Flag env s regs = flagFields env fields regs := by
  cases s with
  | pointer elem =>
    have hd := derefAll_of_structBehind elem fields h
    simp [Flag, GoValue.Kind, derefAll, hd]
  | nilInterface => simp [structTarget] at h
  | nilPointer => simp [structTarget] at h
  | struct fs => simp [structTarget] at h
  | scalar k => simp [structTarget] at h

/-- On anything else `Flag` returns a validation error and leaves the registry alone. -/
theorem Flag_of_not_structTarget (env : Env) (s : GoValue) (regs : FlagSet)
    (h : structTarget s = none) :
    ∃ e, e.isInvalidTarget = true ∧ Flag env s regs = (.error e, regs) := by
  cases s with
  | nilInterface => exact ⟨.nilStructure, rfl, rfl⟩
  | nilPointer => exact ⟨.notStructure .Invalid, rfl, by simp [Flag, GoValue.Kind, derefAll]⟩
  | struct fs => exact ⟨.notPointer .Struct, rfl, by simp [Flag, GoValue.Kind]⟩
  | scalar k =>
    by_cases hk : k = .Ptr
    · subst hk
      exact ⟨.notStructure .Ptr, rfl, by simp [Flag, GoValue.Kind, derefAll]⟩
    · exact ⟨.notPointer k, rfl, by simp [Flag, GoValue.Kind, hk]⟩
  | pointer elem =>
    have hd := derefAll_of_structBehind_none elem h
    refine ⟨.notStructure (derefAll elem).Kind, rfl, ?_⟩
    cases hv : derefAll elem with
    | struct fs => exact absurd hv (hd fs)
    | nilInterface => simp [Flag, GoValue.Kind, derefAll, hv]
    | nilPointer => simp [Flag, GoValue.Kind, derefAll, hv]
    | pointer e => simp [Flag, GoValue.Kind, derefAll, hv]
    | scalar k => simp [Flag, GoValue.Kind, derefAll, hv]

theorem flagFields_append (env : Env) (pre post : List StructField) (regs regs1 : FlagSet)
    (h : flagFields env pre regs = (.nil, regs1)) :
    flagFields env (pre ++ post) regs = flagFields env post regs1 := by
  induction pre generalizing regs with
  | nil =>
    simp only [flagFields, Prod.mk.injEq, true_and] at h
    simp [h]
  | cons f fs ih =>
    simp only [List.cons_append, flagFields] at h ⊢
    cases hf : flagField env f with
    | skip => rw [hf] at h; exact ih regs h
    | register r =>
      rw [hf] at h
      simp only at h ⊢
      cases hv : varPanic regs r.name with
      | none => rw [hv] at h; exact ih _ h
      | some p => rw [hv] at h; simp at h
    | fail e => rw [hf] at h; simp at h
    | panic => rw [hf] at h; simp at h

/-- The outcome of `Flag` when the loop reaches the field `f` with the registry `regs1`:
the step of `f` decides whether the loop goes on and with which registry. -/
theorem Flag_at_field (env : Env) (s : GoValue) (pre post : List StructField)
    (f : StructField) (regs regs1 : FlagSet)
    (hs : structTarget s = some (pre ++ f :: post))
    (hpre : flagFields env pre regs = (.nil, regs1)) :
    Flag env s regs =
      match flagField env f with
      | .skip => flagFields env post regs1
      | .register r =>
        match varPanic regs1 r.name with
        | some p => (.registryPanic p, regs1)
        | none => flagFields env post (regs1 ++ [r])
      | .fail e => (.error e, regs1)
      | .panic => (.panic, regs1) := by
  rw [Flag_of_structTarget env s _ regs hs, flagFields_append env pre _ regs regs1 hpre]
  simp only [flagFields]

theorem flagFields_skip_middle (env : Env) (pre post : List StructField) (f : StructField)
    (regs : FlagSet) (hf : flagField env f = .skip) :
    flagFields env (pre ++ f :: post) regs = flagFields env (pre ++ post) regs := by
  induction pre generalizing regs with
  | nil => simp [flagFields, hf]
  | cons g gs ih =>
    simp only [List.cons_append, flagFields]
    cases flagField env g with
    | skip => exact ih regs
    | register r =>
      simp only
      cases varPanic regs r.name with
      | none => exact ih _
      | some p => rfl
    | fail e => rfl
    | panic => rfl

theorem flagField_skip_iff (env : Env) (f : StructField) :
    flagField env f = .skip ↔ skipped f = true := by
  unfold flagField skipped
  constructor
  · intro h
    by_cases hc : f.CanSet = true
    · by_cases ht : f.Tag = "-"
      · simp [ht]
      · simp only [hc, not_true_eq_false, if_false, ht] at h
        split at h
        · simp at h
        · unfold flagKind at h
          split at h <;> (repeat' split at h) <;> simp at h
    · simp [hc]
  · intro h
    by_cases hc : f.CanSet = true
    · have ht : f.Tag = "-" := by simpa [hc] using h
      simp [hc, ht]
    · simp [hc]

theorem flagKind_register_carries (env : Env) (f : StructField) (r : Registration)
    (h : flagKind env f (flagOptions f.Name f.Tag) = .register r) : Carries env f r := by
  unfold flagKind at h
  split at h <;> (repeat' split at h) <;>
    first
    | simp only [reduceCtorEq] at h
    | (simp only [Step.register.injEq] at h
       subst h
       simp_all [Carries, DecodedDefault, Registration.target, Registration.name,
         Registration.usage])

theorem flagField_register_carries (env : Env) (f : StructField) (r : Registration)
    (h : flagField env f = .register r) : Carries env f r := by
  unfold flagField at h
  split at h
  · simp at h
  · split at h
    · simp at h
    · simp only at h
      split at h
      · rename_i hv
        simp only [Step.register.injEq] at h
        subst h
        simp [Carries, DecodedDefault, Registration.target, Registration.name,
          Registration.usage, hv]
      · exact flagKind_register_carries env f r h

/-- The registry a completed loop leaves: the registry before, then one registration per
field that is not skipped, in the order of the fields, each carrying the data of its
field. -/
theorem flagFields_nil_registrations (env : Env) (fields : List StructField) :
    ∀ regs : FlagSet, (flagFields env fields regs).1 = .nil →
      ∃ rs : List Registration, (flagFields env fields regs).2 = regs ++ rs ∧
        List.Forall₂ (Carries env) (fields.filter (fun f => !skipped f)) rs := by
  induction fields with
  | nil => intro regs _; exact ⟨[], by simp [flagFields], by simp⟩
  | cons f fs ih =>
    intro regs h
    simp only [flagFields] at h ⊢
    cases hf : flagField env f with
    | skip =>
      rw [hf] at h
      have hsk := (flagField_skip_iff env f).1 hf
      obtain ⟨rs, h1, h2⟩ := ih regs h
      exact ⟨rs, h1, by simpa [List.filter, hsk] using h2⟩
    | register r =>
      rw [hf] at h
      have hsk : skipped f = false := by
        cases hb : skipped f with
        | false => rfl
        | true => rw [(flagField_skip_iff env f).2 hb] at hf; simp at hf
      simp only at h ⊢
      cases hv : varPanic regs r.name with
      | some p => rw [hv] at h; simp at h
      | none =>
        rw [hv] at h
        obtain ⟨rs, h1, h2⟩ := ih (regs ++ [r]) h
        refine ⟨r :: rs, by simpa using h1, ?_⟩
        simp only [List.filter, hsk, Bool.not_false]
        exact List.Forall₂.cons (flagField_register_carries env f r hf) h2
    | fail e => rw [hf] at h; simp at h
    | panic => rw [hf] at h; simp at h

theorem flagKind_decoderError (env : Env) (f : StructField) (o : Options) (err : GoError)
    (h : decoderError env f.Typ o.flagDefValue = some err) :
    ∃ what, flagKind env f o = .fail (.badDefault what o.flagName err) := by
  unfold decoderError at h
  unfold flagKind
  split at h
  · rename_i hk
    rw [hk]
    rcases hd : boolDefValue o.flagDefValue with ⟨v, e⟩
    rw [hd] at h
    simp only at h
    subst h
    exact ⟨"boolean", rfl⟩
  · rename_i hk
    rw [hk]
    rcases hd : intDefValue env o.flagDefValue with ⟨v, e⟩
    rw [hd] at h
    simp only at h
    subst h
    exact ⟨"int", rfl⟩
  · rename_i hk
    rw [hk]
    split at h
    · rename_i hstr
      rcases hd : durationDefValue env o.flagDefValue with ⟨v, e⟩
      rw [hd] at h
      simp only at h
      subst h
      exact ⟨"duration", by simp [hstr]⟩
    · rename_i hstr
      rcases hd : int64DefValue env o.flagDefValue with ⟨v, e⟩
      rw [hd] at h
      simp only at h
      subst h
      exact ⟨"int64", by simp [hstr]⟩
  · rename_i hk
    rw [hk]
    rcases hd : uintDefValue env o.flagDefValue with ⟨v, e⟩
    rw [hd] at h
    simp only at h
    subst h
    exact ⟨"uint", rfl⟩
  · rename_i hk
    rw [hk]
    rcases hd : uint64DefValue env o.flagDefValue with ⟨v, e⟩
    rw [hd] at h
    simp only at h
    subst h
    exact ⟨"uint64", rfl⟩
  · rename_i hk
    rw [hk]
    rcases hd : float64DefValue env o.flagDefValue with ⟨v, e⟩
    rw [hd] at h
    simp only at h
    subst h
    exact ⟨"float64", rfl⟩
  · simp at h

theorem flagField_of_not_skipped (env : Env) (f : StructField) (h : skipped f = false) :
    flagField env f =
      if f.Typ.implementsValue then
        .register (.Var f.Name (flagOptions f.Name f.Tag).flagName
          (flagOptions f.Name f.Tag).flagUsage)
      else flagKind env f (flagOptions f.Name f.Tag) := by
  unfold skipped at h
  simp only [Bool.or_eq_false_iff, Bool.not_eq_false', beq_eq_false_iff_ne, ne_eq] at h
  simp [flagField, h.1, h.2]

theorem flagKind_unsupported (env : Env) (f : StructField) (o : Options)
    (h : supportedKind f.Typ.Kind = false) :
    flagKind env f o = .fail (.unsupportedKind f.Typ.Kind f.Name) := by
  unfold flagKind
  cases hk : f.Typ.Kind <;> simp_all [supportedKind]

theorem flagField_fail_not_invalidTarget (env : Env) (f : StructField) (e : FlagError)
    (h : flagField env f = .fail e) : e.isInvalidTarget = false := by
  unfold flagField at h
  split at h
  · simp at h
  · split at h
    · simp at h
    · simp only at h
      split at h
      · simp at h
      · unfold flagKind at h
        split at h <;> (repeat' split at h) <;>
          first
          | simp only [reduceCtorEq] at h
          | (simp only [Step.fail.injEq] at h
             subst h
             rfl)

theorem flagFields_error_not_invalidTarget (env : Env) (fields : List StructField) :
    ∀ (regs : FlagSet) (e : FlagError), (flagFields env fields regs).1 = .error e →
      e.isInvalidTarget = false := by
  induction fields with
  | nil => intro regs e h; simp [flagFields] at h
  | cons f fs ih =>
    intro regs e h
    simp only [flagFields] at h
    cases hf : flagField env f with
    | skip => rw [hf] at h; exact ih regs e h
    | register r =>
      rw [hf] at h
      simp only at h
      cases hv : varPanic regs r.name with
      | some p => rw [hv] at h; simp at h
      | none => rw [hv] at h; exact ih _ e h
    | fail e2 =>
      rw [hf] at h
      simp only [Outcome.error.injEq] at h
      subst h
      exact flagField_fail_not_invalidTarget env f e2 hf
    | panic => rw [hf] at h; simp at h

/-! ## The claims -/

/-- C2, the claim as stated fails: in the structure whose field `A` is tagged `B`, the
untagged settable `int` field `B` is reached with a flag `B` already defined; its
registration call panics in the registry, so the field is not registered. -/
theorem C2_counterexample :
    structTarget (.pointer (.struct shadowedFields)) =
      some ([⟨"A", .int, "B", true⟩] ++ ⟨"B", .int, "", true⟩ :: []) ∧
    zeroRegistration ⟨"B", .int, "", true⟩ = some (.IntVar "B" "B" 0 "") ∧
    flagFields testEnv [⟨"A", .int, "B", true⟩] [] = (.nil, [.IntVar "A" "B" 0 ""]) ∧
    Flag testEnv (.pointer (.struct shadowedFields)) [] =
      (.registryPanic (.redefined "B"), [.IntVar "A" "B" 0 ""]) := by
  refine ⟨rfl, rfl, by decide, by decide⟩

/-- C2, amended. A settable field without tag whose type is one of the supported types
(`bool`, `int`, `int64`, `uint`, `uint64`, `float64`, `string`, `time.Duration`) gets
exactly one registration call, under the field's own name, with the zero value of the
type as default and the empty usage, and no error.  When the loop reaches the field and
the registry accepts the name, `Flag` goes on to the fields after it with the registry
extended by that one registration; when the registry refuses the name, the call panics
and the registry stays as it was. -/
theorem C2_untagged_field_registers_zero (env : Env) (s : GoValue)
    (pre post : List StructField) (f : StructField) (regs regs1 : FlagSet)
    (r : Registration)
    (hs : structTarget s = some (pre ++ f :: post))
    (hset : f.CanSet = true) (htag : f.Tag = "") (hr : zeroRegistration f = some r)
    (hpre : flagFields env pre regs = (.nil, regs1)) :
    flagField env f = .register r ∧
    r.target = f.Name ∧ r.name = f.Name ∧ r.usage = "" ∧
    (varPanic regs1 f.Name = none →
      Flag env s regs = flagFields env post (regs1 ++ [r])) ∧
    (∀ p, varPanic regs1 f.Name = some p →
      Flag env s regs = (.registryPanic p, regs1)) := by
  have hstep : flagField env f = .register r := by
    obtain ⟨name, typ, tag, canSet⟩ := f
    simp only at hset htag
    subst hset htag
    cases typ <;>
      simp_all [zeroRegistration, flagField, flagKind, flagOptions, GoType.implementsValue,
        GoType.Kind, GoType.String, boolDefValue, intDefValue, int64DefValue, uintDefValue,
        uint64DefValue, float64DefValue, durationDefValue]
  have hdata : r.target = f.Name ∧ r.name = f.Name ∧ r.usage = "" := by
    obtain ⟨name, typ, tag, canSet⟩ := f
    cases typ <;> simp_all [zeroRegistration, Registration.target, Registration.name,
      Registration.usage] <;> subst hr <;> simp
  have hF := Flag_at_field env s pre post f regs regs1 hs hpre
  rw [hstep] at hF
  simp only [hdata.2.1] at hF
  refine ⟨hstep, hdata.1, hdata.2.1, hdata.2.2, ?_, ?_⟩
  · intro hv
    rw [hF, hv]
  · intro p hv
    rw [hF, hv]

/-- C2, amended, at the field `I int` of the first test's structure. -/
theorem C2_untagged_field_registers_zero_witness :
    structTarget (.pointer (.struct untaggedFields)) =
      some ([⟨"B", .bool, "", true⟩] ++ ⟨"I", .int, "", true⟩ :: untaggedFields.drop 2) ∧
    flagFields testEnv [⟨"B", .bool, "", true⟩] [] = (.nil, [.BoolVar "B" "B" false ""]) ∧
    flagField testEnv ⟨"I", .int, "", true⟩ = .register (.IntVar "I" "I" 0 "") ∧
    varPanic [.BoolVar "B" "B" false ""] "I" = none ∧
    Flag testEnv (.pointer (.struct untaggedFields)) [] =
      flagFields testEnv (untaggedFields.drop 2)
        ([.BoolVar "B" "B" false ""] ++ [.IntVar "I" "I" 0 ""]) :=
  have h := C2_untagged_field_registers_zero testEnv (.pointer (.struct untaggedFields))
    [⟨"B", .bool, "", true⟩] (untaggedFields.drop 2) ⟨"I", .int, "", true⟩ []
    [.BoolVar "B" "B" false ""] (.IntVar "I" "I" 0 "") rfl rfl rfl rfl (by decide)
  ⟨rfl, by decide, h.1, by decide, h.2.2.2.2.1 (by decide)⟩

/-- C3. Reading the options of a tag never fails (`flagOptions` is total) and is purely
positional: for a non-empty tag split on the comma, the default literal is segment 1
when there are at least two segments and empty otherwise, the usage is segment 2 when
there are at least three segments and empty otherwise, and segments after the third are
ignored (two tags with the same first three segments give the same options).  No segment
contains the comma, so a usage or default text with a comma in it is cut at its first
comma: the tag `n,1,a,b` gives the usage `a`. -/
theorem C3_options_positional (fieldName tag : String) (h : tag ≠ "") :
    (2 ≤ (Split tag).length → (Split tag)[1]? = some (flagOptions fieldName tag).flagDefValue) ∧
    ((Split tag).length < 2 → (flagOptions fieldName tag).flagDefValue = "") ∧
    (3 ≤ (Split tag).length → (Split tag)[2]? = some (flagOptions fieldName tag).flagUsage) ∧
    ((Split tag).length < 3 → (flagOptions fieldName tag).flagUsage = "") ∧
    (∀ tag2 : String, tag2 ≠ "" → (Split tag2).take 3 = (Split tag).take 3 →
      flagOptions fieldName tag2 = flagOptions fieldName tag) ∧
    (∀ seg ∈ Split tag, ',' ∉ seg.data) ∧
    flagOptions fieldName "n,1,a,b" = ⟨"n", "1", "a"⟩ ∧
    flagOptions fieldName "n,a,b" = ⟨"n", "a", "b"⟩ := by
  refine ⟨?_, ?_, ?_, ?_, ?_, ?_, ?_, ?_⟩
  · intro hl
    unfold flagOptions
    simp only [h, ne_eq, not_false_eq_true, if_true]
    rcases hs : Split tag with _ | ⟨a, _ | ⟨b, _ | ⟨c, r⟩⟩⟩ <;> rw [hs] at hl <;>
      simp only [List.length_cons, List.length_nil] at hl <;> first | omega | simp_all
  · intro hl
    unfold flagOptions
    simp only [h, ne_eq, not_false_eq_true, if_true]
    rcases hs : Split tag with _ | ⟨a, _ | ⟨b, _ | ⟨c, r⟩⟩⟩ <;> rw [hs] at hl <;>
      simp only [List.length_cons, List.length_nil] at hl <;> first | omega | simp_all
  · intro hl
    unfold flagOptions
    simp only [h, ne_eq, not_false_eq_true, if_true]
    rcases hs : Split tag with _ | ⟨a, _ | ⟨b, _ | ⟨c, r⟩⟩⟩ <;> rw [hs] at hl <;>
      simp only [List.length_cons, List.length_nil] at hl <;> first | omega | simp_all
  · intro hl
    unfold flagOptions
    simp only [h, ne_eq, not_false_eq_true, if_true]
    rcases hs : Split tag with _ | ⟨a, _ | ⟨b, _ | ⟨c, r⟩⟩⟩ <;> rw [hs] at hl <;>
      simp only [List.length_cons, List.length_nil] at hl <;> first | omega | simp_all
  · intro tag2 h2 ht
    exact flagOptions_of_take fieldName tag tag2 h h2 ht
  · intro seg hseg
    unfold Split at hseg
    rcases List.mem_map.1 hseg with ⟨piece, hp, rfl⟩
    exact splitComma_no_comma _ piece hp
  · have hs : Split "n,1,a,b" = ["n", "1", "a", "b"] := by decide
    have hne : ("n,1,a,b" : String) ≠ "" := by decide
    simp [flagOptions, hs, hne]
  · have hs : Split "n,a,b" = ["n", "a", "b"] := by decide
    have hne : ("n,a,b" : String) ≠ "" := by decide
    simp [flagOptions, hs, hne]

/-- C3, at the tag `n,1,a,b,c` of a field `F`. -/
theorem C3_options_positional_witness :
    ("n,1,a,b,c" : String) ≠ "" ∧
    (Split "n,1,a,b,c")[2]? = some (flagOptions "F" "n,1,a,b,c").flagUsage ∧
    (flagOptions "F" "n,1,a,b,c").flagUsage = "a" :=
  ⟨by decide, (C3_options_positional "F" "n,1,a,b,c" (by decide)).2.2.1 (by decide), by decide⟩

/-- C4. Every decoder maps the empty literal to the zero value of its type with a `nil`
error, on every platform and whatever the floating-point parsers do; the parsers are not
what answers, since `strconv.ParseBool`, `ParseInt` and `ParseUint` reject the empty
string. -/
theorem C4_empty_literal_is_zero (env : Env) :
    boolDefValue "" = (false, none) ∧
    intDefValue env "" = (0, none) ∧
    int64DefValue env "" = (0, none) ∧
    uintDefValue env "" = (0, none) ∧
    uint64DefValue env "" = (0, none) ∧
    float64DefValue env "" = (⟨0⟩, none) ∧
    durationDefValue env "" = (0, none) ∧
    (ParseBool "").2 ≠ none ∧ (Atoi env "").2 ≠ none ∧ (ParseInt env "" 64).2 ≠ none ∧
    (ParseUint env "" 0).2 ≠ none ∧ (ParseUint env "" 64).2 ≠ none := by
  refine ⟨by decide, ?_, ?_, ?_, ?_, ?_, ?_, by decide, ?_, ?_, ?_, ?_⟩ <;>
    simp [intDefValue, int64DefValue, uintDefValue, uint64DefValue, float64DefValue,
      durationDefValue, Atoi, ParseInt, ParseUint]

/-- C5. For a field that is not skipped, whose pointer is not a `flag.Value` and whose
kind is `bool`, `int`, `int64` (`time.Duration` included), `uint`, `uint64` or `float64`:
if the decoder of its kind rejects the default literal of its tag, the step of the field
is a bad-default error carrying the flag name and the decoder's error, and `Flag`,
reaching the field, returns that error with the registry as it was when the field was
reached, so without a registration for the field.  The decoders reject `tru` for a
`bool`, `-42i` for an `int`, `-101010i` for an `int64`, `42x` for a `uint` and `101010x`
for a `uint64`. -/
theorem C5_bad_default_is_error (env : Env) :
    (∀ (s : GoValue) (pre post : List StructField) (f : StructField) (regs regs1 : FlagSet)
        (err : GoError),
        structTarget s = some (pre ++ f :: post) →
        skipped f = false → f.Typ.implementsValue = false →
        decoderError env f.Typ (flagOptions f.Name f.Tag).flagDefValue = some err →
        flagFields env pre regs = (.nil, regs1) →
        ∃ what,
          flagField env f =
            .fail (.badDefault what (flagOptions f.Name f.Tag).flagName err) ∧
          Flag env s regs =
            (.error (.badDefault what (flagOptions f.Name f.Tag).flagName err), regs1)) ∧
    (boolDefValue "tru").2 = some .ErrSyntax ∧
    (intDefValue env "-42i").2 = some .ErrSyntax ∧
    (int64DefValue env "-101010i").2 = some .ErrSyntax ∧
    (uintDefValue env "42x").2 = some .ErrSyntax ∧
    (uint64DefValue env "101010x").2 = some .ErrSyntax := by
  refine ⟨?_, by decide, ?_, ?_, ?_, ?_⟩
  · intro s pre post f regs regs1 err hs hskip hv hdec hpre
    obtain ⟨what, hk⟩ := flagKind_decoderError env f (flagOptions f.Name f.Tag) err hdec
    have hstep : flagField env f =
        .fail (.badDefault what (flagOptions f.Name f.Tag).flagName err) := by
      rw [flagField_of_not_skipped env f hskip, hv]
      simpa using hk
    refine ⟨what, hstep, ?_⟩
    rw [Flag_at_field env s pre post f regs regs1 hs hpre, hstep]
  · rcases env.IntSize_valid with h | h <;>
      simp [intDefValue, Atoi, ParseInt, ParseUint, h] <;> decide
  · simp [int64DefValue, ParseInt, ParseUint]
    decide
  · rcases env.IntSize_valid with h | h <;>
      simp [uintDefValue, ParseUint, h] <;> decide
  · simp [uint64DefValue, ParseUint]
    decide

/-- C5, at the structure of the test of a malformed boolean default. -/
theorem C5_bad_default_is_error_witness :
    structTarget (.pointer (.struct badBoolFields)) =
      some ([] ++ ⟨"B", .bool, "bool,tru,boolean value", true⟩ :: []) ∧
    decoderError testEnv GoType.bool
      (flagOptions "B" "bool,tru,boolean value").flagDefValue = some .ErrSyntax ∧
    ∃ what,
      flagField testEnv ⟨"B", .bool, "bool,tru,boolean value", true⟩ =
        .fail (.badDefault what (flagOptions "B" "bool,tru,boolean value").flagName
          .ErrSyntax) ∧
      Flag testEnv (.pointer (.struct badBoolFields)) [] =
        (.error (.badDefault what (flagOptions "B" "bool,tru,boolean value").flagName
          .ErrSyntax), []) :=
  ⟨rfl, by decide,
    (C5_bad_default_is_error testEnv).1 (.pointer (.struct badBoolFields)) [] []
      ⟨"B", .bool, "bool,tru,boolean value", true⟩ [] [] .ErrSyntax rfl (by decide) rfl
      (by decide) rfl⟩

/-- C6. For a field that is not skipped, whose pointer is not a `flag.Value` and whose
kind is none of `bool`, `int`, `int64`, `uint`, `uint64`, `float64`, `string`, whatever
its tag: the step of the field is the unsupported-kind error, which carries the kind and
the name of the field, and `Flag`, reaching the field, returns that error with the
registry as it was when the field was reached. -/
theorem C6_unsupported_kind_is_error (env : Env) (s : GoValue)
    (pre post : List StructField) (f : StructField) (regs regs1 : FlagSet)
    (hs : structTarget s = some (pre ++ f :: post))
    (hskip : skipped f = false) (hv : f.Typ.implementsValue = false)
    (hk : supportedKind f.Typ.Kind = false)
    (hpre : flagFields env pre regs = (.nil, regs1)) :
    flagField env f = .fail (.unsupportedKind f.Typ.Kind f.Name) ∧
    Flag env s regs = (.error (.unsupportedKind f.Typ.Kind f.Name), regs1) := by
  have hstep : flagField env f = .fail (.unsupportedKind f.Typ.Kind f.Name) := by
    rw [flagField_of_not_skipped env f hskip, hv]
    simpa using flagKind_unsupported env f _ hk
  refine ⟨hstep, ?_⟩
  rw [Flag_at_field env s pre post f regs regs1 hs hpre, hstep]

/-- C6, at the structure of the test of a pointer-to-string field. -/
theorem C6_unsupported_kind_is_error_witness :
    structTarget (.pointer (.struct unsupportedFields)) =
      some ([] ++ ⟨"UnsupportedType", .other "*string" .Ptr false, "unsupported", true⟩
        :: []) ∧
    Flag testEnv (.pointer (.struct unsupportedFields)) [] =
      (.error (.unsupportedKind .Ptr "UnsupportedType"), []) :=
  ⟨rfl,
    (C6_unsupported_kind_is_error testEnv (.pointer (.struct unsupportedFields)) [] []
      ⟨"UnsupportedType", .other "*string" .Ptr false, "unsupported", true⟩ [] []
      rfl (by decide) rfl (by decide) rfl).2⟩

/-- C7. `Flag` gets past target validation exactly on a chain of one or more pointers
that ends in a structure: on such an input it is the field loop over the structure's
fields and never returns a validation error; on any other input it returns a validation
error and leaves the registry as it was.  The untyped `nil`, the integer `0`, a structure
passed by value and a pointer to a string are of the second sort. -/
theorem C7_target_validation (env : Env) (s : GoValue) (regs : FlagSet) :
    ((∃ fields, structTarget s = some fields) ↔
      ¬ ∃ e, e.isInvalidTarget = true ∧ (Flag env s regs).1 = .error e) ∧
    (∀ fields, structTarget s = some fields →
      Flag env s regs = flagFields env fields regs) ∧
    (structTarget s = none →
      ∃ e, e.isInvalidTarget = true ∧ Flag env s regs = (.error e, regs)) ∧
    Flag env .nilInterface regs = (.error .nilStructure, regs) ∧
    Flag env (.scalar .Int) regs = (.error (.notPointer .Int), regs) ∧
    (∀ fields, Flag env (.struct fields) regs = (.error (.notPointer .Struct), regs)) ∧
    Flag env (.pointer (.scalar .String)) regs = (.error (.notStructure .String), regs) ∧
    Flag env .nilPointer regs = (.error (.notStructure .Invalid), regs) := by
  refine ⟨⟨?_, ?_⟩, ?_, ?_, rfl, ?_, ?_, ?_, ?_⟩
  · rintro ⟨fields, hf⟩ ⟨e, he, hout⟩
    rw [Flag_of_structTarget env s fields regs hf] at hout
    have := flagFields_error_not_invalidTarget env fields regs e hout
    rw [he] at this
    exact Bool.noConfusion this
  · intro h
    cases ht : structTarget s with
    | some fields => exact ⟨fields, rfl⟩
    | none =>
      obtain ⟨e, he, hF⟩ := Flag_of_not_structTarget env s regs ht
      exact absurd ⟨e, he, by rw [hF]⟩ h
  · intro fields hf
    exact Flag_of_structTarget env s fields regs hf
  · intro h
    exact Flag_of_not_structTarget env s regs h
  · simp [Flag, GoValue.Kind]
  · intro fields
    simp [Flag, GoValue.Kind]
  · simp [Flag, GoValue.Kind, derefAll]
  · simp [Flag, GoValue.Kind, derefAll]

/-- C7, at a pointer to a pointer to a string. -/
theorem C7_target_validation_witness :
    structTarget (.pointer (.pointer (.scalar .String))) = none ∧
    ∃ e, e.isInvalidTarget = true ∧
      Flag testEnv (.pointer (.pointer (.scalar .String))) [] = (.error e, []) :=
  ⟨rfl, (C7_target_validation testEnv (.pointer (.pointer (.scalar .String))) []).2.2.1 rfl⟩

/-- C8. A settable field whose tag is exactly `-` is passed over, whatever its type
(a type of an unsupported kind, a type whose pointer is a `flag.Value`): its step is a
skip, and `Flag` on the structure equals `Flag` on the structure without the field, in
outcome and in registry. -/
theorem C8_dash_tag_is_skipped (env : Env) (s s2 : GoValue)
    (pre post : List StructField) (f : StructField) (regs : FlagSet)
    (hs : structTarget s = some (pre ++ f :: post))
    (hs2 : structTarget s2 = some (pre ++ post))
    (hset : f.CanSet = true) (htag : f.Tag = "-") :
    flagField env f = .skip ∧ Flag env s regs = Flag env s2 regs := by
  have hstep : flagField env f = .skip := by simp [flagField, hset, htag]
  refine ⟨hstep, ?_⟩
  rw [Flag_of_structTarget env s _ regs hs, Flag_of_structTarget env s2 _ regs hs2]
  exact flagFields_skip_middle env pre post f regs hstep

/-- C8, at a field tagged `-` of pointer kind placed before a `bool` field. -/
theorem C8_dash_tag_is_skipped_witness :
    structTarget (.pointer (.struct
      [⟨"P", .other "*string" .Ptr false, "-", true⟩, ⟨"B", .bool, "", true⟩])) =
      some ([] ++ ⟨"P", .other "*string" .Ptr false, "-", true⟩ ::
        [⟨"B", .bool, "", true⟩]) ∧
    flagField testEnv ⟨"P", .other "*string" .Ptr false, "-", true⟩ = .skip ∧
    Flag testEnv (.pointer (.struct
      [⟨"P", .other "*string" .Ptr false, "-", true⟩, ⟨"B", .bool, "", true⟩])) [] =
      Flag testEnv (.pointer (.struct [⟨"B", .bool, "", true⟩])) [] :=
  ⟨rfl,
    C8_dash_tag_is_skipped testEnv
      (.pointer (.struct
        [⟨"P", .other "*string" .Ptr false, "-", true⟩, ⟨"B", .bool, "", true⟩]))
      (.pointer (.struct [⟨"B", .bool, "", true⟩])) [] [⟨"B", .bool, "", true⟩]
      ⟨"P", .other "*string" .Ptr false, "-", true⟩ [] rfl rfl rfl rfl⟩

/-- C9. A field that is not settable is passed over, whatever its tag and its type (a
tag with a default literal no decoder accepts, a type of an unsupported kind): its step
is a skip, and `Flag` on the structure equals `Flag` on the structure without the field,
in outcome and in registry. -/
theorem C9_unsettable_is_skipped (env : Env) (s s2 : GoValue)
    (pre post : List StructField) (f : StructField) (regs : FlagSet)
    (hs : structTarget s = some (pre ++ f :: post))
    (hs2 : structTarget s2 = some (pre ++ post))
    (hset : f.CanSet = false) :
    flagField env f = .skip ∧ Flag env s regs = Flag env s2 regs := by
  have hstep : flagField env f = .skip := by simp [flagField, hset]
  refine ⟨hstep, ?_⟩
  rw [Flag_of_structTarget env s _ regs hs, Flag_of_structTarget env s2 _ regs hs2]
  exact flagFields_skip_middle env pre post f regs hstep

/-- C9, at an unexported `bool` field with the malformed default `tru`, placed after an
`int` field. -/
theorem C9_unsettable_is_skipped_witness :
    structTarget (.pointer (.struct
      [⟨"I", .int, "i,7,desc", true⟩, ⟨"b", .bool, "bool,tru,desc", false⟩])) =
      some ([⟨"I", .int, "i,7,desc", true⟩] ++ ⟨"b", .bool, "bool,tru,desc", false⟩ :: []) ∧
    flagField testEnv ⟨"b", .bool, "bool,tru,desc", false⟩ = .skip ∧
    Flag testEnv (.pointer (.struct
      [⟨"I", .int, "i,7,desc", true⟩, ⟨"b", .bool, "bool,tru,desc", false⟩])) [] =
      Flag testEnv (.pointer (.struct [⟨"I", .int, "i,7,desc", true⟩])) [] :=
  ⟨rfl,
    C9_unsettable_is_skipped testEnv
      (.pointer (.struct
        [⟨"I", .int, "i,7,desc", true⟩, ⟨"b", .bool, "bool,tru,desc", false⟩]))
      (.pointer (.struct [⟨"I", .int, "i,7,desc", true⟩])) [⟨"I", .int, "i,7,desc", true⟩] []
      ⟨"b", .bool, "bool,tru,desc", false⟩ [] rfl rfl rfl⟩

/-- C10, the claim as stated fails: a field whose pointer is a `flag.Value` and whose
tag is `-,1,usage` is not skipped, and its `Var` call panics in the registry, which
refuses a flag name that begins with `-`; so does the second of two such fields that ask
for the same flag name. -/
theorem C10_counterexample :
    skipped ⟨"V", .other "flagger.TestValue" .Struct true, "-,1,usage", true⟩ = false ∧
    Flag testEnv (.pointer (.struct
      [⟨"V", .other "flagger.TestValue" .Struct true, "-,1,usage", true⟩])) [] =
      (.registryPanic (.beginsWithDash "-"), []) ∧
    Flag testEnv (.pointer (.struct
      [⟨"V", .other "flagger.TestValue" .Struct true, "x", true⟩,
       ⟨"W", .other "flagger.TestValue" .Struct true, "x", true⟩])) [] =
      (.registryPanic (.redefined "x"), [.Var "V" "x" ""]) := by
  refine ⟨by decide, by decide, by decide⟩

/-- C10, amended. A field that is not skipped and whose pointer is a `flag.Value` gets
the `Var` call with the flag name and the usage of its tag, on every platform, whatever
the default literal of the tag and whatever the kind of its type (a kind with a decoder,
a kind the switch does not support): its step is that call, never an error and never a
failed assertion.  When the loop reaches the field and the registry accepts the flag
name, `Flag` goes on to the fields after it with the registry extended by the
registration; when the registry refuses the name, the call panics and the registry
stays as it was. -/
theorem C10_flag_value_uses_var (env : Env) (s : GoValue)
    (pre post : List StructField) (f : StructField) (regs regs1 : FlagSet)
    (hs : structTarget s = some (pre ++ f :: post))
    (hskip : skipped f = false) (hv : f.Typ.implementsValue = true)
    (hpre : flagFields env pre regs = (.nil, regs1)) :
    flagField env f =
      .register (.Var f.Name (flagOptions f.Name f.Tag).flagName
        (flagOptions f.Name f.Tag).flagUsage) ∧
    (varPanic regs1 (flagOptions f.Name f.Tag).flagName = none →
      Flag env s regs =
        flagFields env post
          (regs1 ++ [.Var f.Name (flagOptions f.Name f.Tag).flagName
            (flagOptions f.Name f.Tag).flagUsage])) ∧
    (∀ p, varPanic regs1 (flagOptions f.Name f.Tag).flagName = some p →
      Flag env s regs = (.registryPanic p, regs1)) := by
  have hstep : flagField env f =
      .register (.Var f.Name (flagOptions f.Name f.Tag).flagName
        (flagOptions f.Name f.Tag).flagUsage) := by
    rw [flagField_of_not_skipped env f hskip, hv]
    simp
  have hF := Flag_at_field env s pre post f regs regs1 hs hpre
  rw [hstep] at hF
  simp only [Registration.name] at hF
  refine ⟨hstep, ?_, ?_⟩
  · intro hp
    rw [hF, hp]
  · intro p hp
    rw [hF, hp]

/-- C10, amended, at a field of a named `bool` type whose pointer is a `flag.Value`,
with the default literal `tru` that the `bool` decoder rejects. -/
theorem C10_flag_value_uses_var_witness :
    structTarget (.pointer (.struct
      [⟨"V", .other "main.OnOff" .Bool true, "v,tru,switch", true⟩])) =
      some ([] ++ ⟨"V", .other "main.OnOff" .Bool true, "v,tru,switch", true⟩ :: []) ∧
    (boolDefValue "tru").2 = some .ErrSyntax ∧
    varPanic [] (flagOptions "V" "v,tru,switch").flagName = none ∧
    Flag testEnv (.pointer (.struct
      [⟨"V", .other "main.OnOff" .Bool true, "v,tru,switch", true⟩])) [] =
      (.nil, [.Var "V" "v" "switch"]) :=
  ⟨rfl, by decide, by decide,
    ((C10_flag_value_uses_var testEnv
      (.pointer (.struct [⟨"V", .other "main.OnOff" .Bool true, "v,tru,switch", true⟩]))
      [] [] ⟨"V", .other "main.OnOff" .Bool true, "v,tru,switch", true⟩ [] []
      rfl (by decide) rfl rfl).2.1 (by decide)).trans (by decide)⟩

/-! ## Aborting the loop -/

theorem flagFields_error_split (env : Env) (fields : List StructField) :
    ∀ (regs : FlagSet) (e : FlagError), (flagFields env fields regs).1 = .error e →
      ∃ pre f post, fields = pre ++ f :: post ∧ (flagFields env pre regs).1 = .nil ∧
        flagField env f = .fail e := by
  induction fields with
  | nil => intro regs e h; simp [flagFields] at h
  | cons g gs ih =>
    intro regs e h
    simp only [flagFields] at h
    cases hg : flagField env g with
    | skip =>
      rw [hg] at h
      obtain ⟨pre, f, post, h1, h2, h3⟩ := ih regs e h
      exact ⟨g :: pre, f, post, by simp [h1], by simpa [flagFields, hg] using h2, h3⟩
    | register r =>
      rw [hg] at h
      simp only at h
      cases hv : varPanic regs r.name with
      | some p => rw [hv] at h; simp at h
      | none =>
        rw [hv] at h
        obtain ⟨pre, f, post, h1, h2, h3⟩ := ih _ e h
        exact ⟨g :: pre, f, post, by simp [h1], by simpa [flagFields, hg, hv] using h2, h3⟩
    | fail e2 =>
      rw [hg] at h
      simp only [Outcome.error.injEq] at h
      subst h
      exact ⟨[], g, gs, rfl, rfl, hg⟩
    | panic => rw [hg] at h; simp at h

/-- C11. `Flag` stops at the first failing field and rolls nothing back.  When the
fields before the field at index `k` are walked without failure and that field raises
an error, `Flag` returns this error and the registry is the registry before the call
followed by exactly the registrations of the fields below `k` that are not skipped, in
order: nothing for the field `k`, nothing for a later field, and nothing at all when no
field below `k` is registered.  Every error `Flag` returns on a valid target arises so,
from a field that is not skipped, and is a bad-default or unsupported-kind error. -/
theorem C11_abort_without_rollback (env : Env) (s : GoValue) (fields : List StructField)
    (regs : FlagSet) (hs : structTarget s = some fields) :
    (∀ (pre post : List StructField) (f : StructField) (e : FlagError),
      fields = pre ++ f :: post → (flagFields env pre regs).1 = .nil →
      flagField env f = .fail e →
      ∃ rs : List Registration, Flag env s regs = (.error e, regs ++ rs) ∧
        List.Forall₂ (Carries env) (pre.filter (fun g => !skipped g)) rs ∧
        (pre.filter (fun g => !skipped g) = [] → Flag env s regs = (.error e, regs))) ∧
    (∀ e : FlagError, (Flag env s regs).1 = .error e →
      ∃ pre f post, fields = pre ++ f :: post ∧ (flagFields env pre regs).1 = .nil ∧
        flagField env f = .fail e ∧ skipped f = false ∧ e.isInvalidTarget = false) := by
  constructor
  · intro pre post f e hfields hpre hf
    obtain ⟨rs, h1, h2⟩ := flagFields_nil_registrations env pre regs hpre
    have hpre2 : flagFields env pre regs = (.nil, regs ++ rs) := by
      rw [← hpre, ← h1]
    have hF : Flag env s regs = (.error e, regs ++ rs) := by
      rw [Flag_at_field env s pre post f regs (regs ++ rs) (hfields ▸ hs) hpre2, hf]
    refine ⟨rs, hF, h2, ?_⟩
    intro hnone
    rw [hnone] at h2
    cases h2
    simpa using hF
  · intro e he
    rw [Flag_of_structTarget env s fields regs hs] at he
    obtain ⟨pre, f, post, h1, h2, h3⟩ := flagFields_error_split env fields regs e he
    refine ⟨pre, f, post, h1, h2, h3, ?_, flagField_fail_not_invalidTarget env f e h3⟩
    cases hb : skipped f with
    | false => rfl
    | true => rw [(flagField_skip_iff env f).2 hb] at h3; simp at h3

/-- C11, at a structure whose third field has the malformed boolean default `tru`. -/
theorem C11_abort_without_rollback_witness :
    structTarget (.pointer (.struct lateFailureFields)) = some lateFailureFields ∧
    lateFailureFields =
      [⟨"I", .int, "i,7,desc", true⟩, ⟨"X", .string, "-", true⟩] ++
        ⟨"B", .bool, "bool,tru,desc", true⟩ :: [⟨"S", .string, "s,,desc", true⟩] ∧
    (flagFields testEnv [⟨"I", .int, "i,7,desc", true⟩, ⟨"X", .string, "-", true⟩] []).1 =
      .nil ∧
    flagField testEnv ⟨"B", .bool, "bool,tru,desc", true⟩ =
      .fail (.badDefault "boolean" "bool" .ErrSyntax) ∧
    Flag testEnv (.pointer (.struct lateFailureFields)) [] =
      (.error (.badDefault "boolean" "bool" .ErrSyntax), [.IntVar "I" "i" 7 "desc"]) ∧
    ∃ rs : List Registration,
      Flag testEnv (.pointer (.struct lateFailureFields)) [] =
        (.error (.badDefault "boolean" "bool" .ErrSyntax), [] ++ rs) :=
  have h := (C11_abort_without_rollback testEnv (.pointer (.struct lateFailureFields))
    lateFailureFields [] rfl).1
    [⟨"I", .int, "i,7,desc", true⟩, ⟨"X", .string, "-", true⟩]
    [⟨"S", .string, "s,,desc", true⟩] ⟨"B", .bool, "bool,tru,desc", true⟩
    (.badDefault "boolean" "bool" .ErrSyntax) rfl (by decide) (by decide)
  ⟨rfl, rfl, by decide, by decide, by decide, h.imp (fun _ hr => hr.1)⟩

/-- C15. The decoder `boolDefValue` is strict: it returns `true` with a `nil` error
exactly on `1`, `t`, `T`, `TRUE`, `true`, `True`; it returns `false` with a `nil` error
exactly on the empty literal and `0`, `f`, `F`, `FALSE`, `false`, `False`; on every other
string it returns an error, for instance on `tru`, `yes` and ` true`. -/
theorem C15_boolDefValue_strict (str : String) :
    (boolDefValue str = (true, none) ↔
      str ∈ ["1", "t", "T", "TRUE", "true", "True"]) ∧
    (boolDefValue str = (false, none) ↔
      str ∈ ["", "0", "f", "F", "FALSE", "false", "False"]) ∧
    ((∃ err, (boolDefValue str).2 = some err) ↔
      str ∉ ["1", "t", "T", "TRUE", "true", "True", "", "0", "f", "F", "FALSE", "false",
        "False"]) ∧
    (boolDefValue "tru").2 = some .ErrSyntax ∧
    (boolDefValue "yes").2 = some .ErrSyntax ∧
    (boolDefValue " true").2 = some .ErrSyntax := by
  refine ⟨?_, ?_, ?_, by decide, by decide, by decide⟩
  · unfold boolDefValue ParseBool
    simp only [List.mem_cons, List.mem_singleton, List.not_mem_nil, or_false]
    split_ifs with h1 h2 h3
    · subst h1; simp
    · simp [h2]
    · rcases h3 with h | h | h | h | h | h <;> subst h <;> simp
    · simp only [Prod.mk.injEq, Bool.false_eq_true, false_and, false_iff]
      exact h2
  · unfold boolDefValue ParseBool
    simp only [List.mem_cons, List.mem_singleton, List.not_mem_nil, or_false]
    split_ifs with h1 h2 h3
    · simp [h1]
    · rcases h2 with h | h | h | h | h | h <;> subst h <;> simp
    · simp [h3]
    · simp only [Prod.mk.injEq, true_and, reduceCtorEq, false_iff]
      intro h
      rcases h with h | h
      · exact h1 h
      · exact h3 h
  · unfold boolDefValue ParseBool
    simp only [List.mem_cons, List.mem_singleton, List.not_mem_nil, or_false]
    split_ifs with h1 h2 h3
    · simp [h1]
    · rcases h2 with h | h | h | h | h | h <;> subst h <;> simp
    · rcases h3 with h | h | h | h | h | h <;> subst h <;> simp
    · simp only [Option.some.injEq, exists_eq', true_iff]
      intro h
      rcases h with h | h | h | h | h | h | h
      · exact h2 (Or.inl h)
      · exact h2 (Or.inr (Or.inl h))
      · exact h2 (Or.inr (Or.inr (Or.inl h)))
      · exact h2 (Or.inr (Or.inr (Or.inr (Or.inl h))))
      · exact h2 (Or.inr (Or.inr (Or.inr (Or.inr (Or.inl h)))))
      · exact h2 (Or.inr (Or.inr (Or.inr (Or.inr (Or.inr h)))))
      · rcases h with h | h
        · exact h1 h
        · exact h3 h

/-! ## The flag name -/

theorem flagOptions_flagName (fieldName tag : String) :
    (tag = "" → (flagOptions fieldName tag).flagName = fieldName) ∧
    (tag ≠ "" → (Split tag)[0]? = some (flagOptions fieldName tag).flagName) := by
  constructor
  · intro h
    simp [flagOptions, h]
  · intro h
    unfold flagOptions
    simp only [h, ne_eq, not_false_eq_true, if_true]
    rcases hs : Split tag with _ | ⟨a, _ | ⟨b, _ | ⟨c, r⟩⟩⟩
    · have := Split_length_pos tag
      rw [hs] at this
      simp at this
    · simp
    · simp
    · simp

/-- C14, the claim as stated fails: the tag `,5,usage` has an empty segment 0, for which
the claim names the flag after the field, and `Flag` registers the `int` field `I` under
the empty name. -/
theorem C14_counterexample :
    flagField testEnv ⟨"I", .int, ",5,usage", true⟩ =
      .register (.IntVar "I" "" 5 "usage") ∧
    specFlagName "I" ",5,usage" = "I" ∧
    (flagOptions "I" ",5,usage").flagName ≠ specFlagName "I" ",5,usage" ∧
    Flag testEnv (.pointer (.struct [⟨"I", .int, ",5,usage", true⟩])) [] =
      (.nil, [.IntVar "I" "" 5 "usage"]) := by
  refine ⟨by decide, by decide, by decide, by decide⟩

/-- C14, amended. The flag name a field is registered under is the field's identifier
when the tag is empty and segment 0 of the tag whenever the tag is not empty, also when
that segment is empty; it is the name of the specification whenever segment 0 is not
empty.  The tag `,5,usage` gives the empty flag name. -/
theorem C14_flag_name_is_first_segment (env : Env) (f : StructField) (r : Registration)
    (h : flagField env f = .register r) :
    (f.Tag = "" → r.name = f.Name) ∧
    (f.Tag ≠ "" → (Split f.Tag)[0]? = some r.name) ∧
    ((Split f.Tag)[0]? ≠ some "" → r.name = specFlagName f.Name f.Tag) ∧
    (flagOptions f.Name ",5,usage").flagName = "" := by
  have hname : r.name = (flagOptions f.Name f.Tag).flagName :=
    (flagField_register_carries env f r h).2.1
  have hopt := flagOptions_flagName f.Name f.Tag
  refine ⟨?_, ?_, ?_, ?_⟩
  · intro ht
    rw [hname, hopt.1 ht]
  · intro ht
    rw [hname, hopt.2 ht]
  · intro hseg
    by_cases ht : f.Tag = ""
    · exfalso
      apply hseg
      rw [ht]
      decide
    · have h0 := hopt.2 ht
      rw [hname]
      unfold specFlagName
      rw [h0]
      rw [h0] at hseg
      have hne : (flagOptions f.Name f.Tag).flagName ≠ "" := fun hc => hseg (by rw [hc])
      simp [hne]
  · have hs : Split ",5,usage" = ["", "5", "usage"] := by decide
    have hne : (",5,usage" : String) ≠ "" := by decide
    simp [flagOptions, hs, hne]

/-- C14, amended, at the `int` field of the test with the tag `int,-42,integer value`. -/
theorem C14_flag_name_is_first_segment_witness :
    flagField testEnv ⟨"I", .int, "int,-42,integer value", true⟩ =
      .register (.IntVar "I" "int" (-42) "integer value") ∧
    (Split "int,-42,integer value")[0]? = some "int" :=
  ⟨by decide,
    (C14_flag_name_is_first_segment testEnv ⟨"I", .int, "int,-42,integer value", true⟩
      (.IntVar "I" "int" (-42) "integer value") (by decide)).2.1 (by decide)⟩

/-! ## Fields of kind string -/

/-- C13. A field of a named type whose underlying kind is `string` (`type Name string`),
not a `flag.Value`: the `string` case asserts `value.(*string)`, which fails, so `Flag`
panics instead of registering the field.  For a field whose declared type is `string`
itself the step is always the `StringVar` registration, with the default literal of the
tag passed unchanged. -/
theorem C13_named_string_panics (env : Env) :
    flagField env ⟨"N", .other "main.Name" .String false, "n,x,u", true⟩ = .panic ∧
    (∀ regs : FlagSet,
      Flag env (.pointer (.struct [⟨"N", .other "main.Name" .String false, "n,x,u", true⟩]))
        regs = (.panic, regs)) ∧
    (∀ f : StructField, skipped f = false → f.Typ = .string →
      flagField env f =
        .register (.StringVar f.Name (flagOptions f.Name f.Tag).flagName
          (flagOptions f.Name f.Tag).flagDefValue (flagOptions f.Name f.Tag).flagUsage)) := by
  have hstep : flagField env ⟨"N", .other "main.Name" .String false, "n,x,u", true⟩ =
      .panic := by
    have hne : ("n,x,u" : String) ≠ "-" := by decide
    simp [flagField, flagKind, GoType.implementsValue, GoType.Kind, hne]
  refine ⟨hstep, ?_, ?_⟩
  · intro regs
    rw [Flag_at_field env
      (.pointer (.struct [⟨"N", .other "main.Name" .String false, "n,x,u", true⟩])) [] []
      ⟨"N", .other "main.Name" .String false, "n,x,u", true⟩ regs regs rfl rfl, hstep]
  · intro f hskip ht
    rw [flagField_of_not_skipped env f hskip]
    simp [ht, GoType.implementsValue, flagKind, GoType.Kind]

/-- C13, at the `string` field of the test with the tag `string,lorem ipsum,string
value`. -/
theorem C13_named_string_panics_witness :
    skipped ⟨"S", .string, "string,lorem ipsum,string value", true⟩ = false ∧
    flagField testEnv ⟨"S", .string, "string,lorem ipsum,string value", true⟩ =
      .register (.StringVar "S" "string" "lorem ipsum" "string value") :=
  ⟨by decide,
    ((C13_named_string_panics testEnv).2.2
      ⟨"S", .string, "string,lorem ipsum,string value", true⟩ (by decide) rfl).trans
      (by decide)⟩

/-! ## Fields of kind int64 -/

/-- C12. The guard of the special case compares the printed name of the type with
`time.Duration`, and the branch then asserts `value.(*time.Duration)`.  For a field of
a type of kind `int64` that prints as `time.Duration` without being it (the type
`Duration` of another package named `time`) the duration decoder is taken and the
assertion fails: with an empty default literal `Flag` panics, on every platform; with
the literal `42`, which the 64-bit integer decoder accepts, it returns the duration
decoder's error when the library rejects the duration `42`.  A field of a named type
`Big` defined as `int64` with the default `42` panics in the assertion `value.(*int64)`.
For a field of kind `int64` that is not skipped and not a `flag.Value` the step is: when
the type prints as `time.Duration`, the duration error on a literal the duration decoder
rejects and, for `time.Duration` itself, the `DurationVar` call on an accepted literal;
otherwise the int64 error on a literal the 64-bit integer decoder rejects and, for
`int64` itself, the `Int64Var` call on an accepted literal.  Hence, when the library
accepts the duration `42s` and rejects the duration `42`: the default `42s` is accepted
for a `time.Duration` field and rejected for an `int64` field, and the default `42` is
accepted for an `int64` field and rejected for a `time.Duration` field. -/
theorem C12_lookalike_duration_panics (env : Env) :
    GoType.other "time.Duration" .Int64 false ≠ GoType.duration ∧
    (∀ regs : FlagSet,
      Flag env (.pointer (.struct
        [⟨"D", .other "time.Duration" .Int64 false, "d,,usage", true⟩])) regs =
        (.panic, regs)) ∧
    (∀ regs : FlagSet,
      Flag env (.pointer (.struct
        [⟨"B", .other "main.Big" .Int64 false, "b,42,usage", true⟩])) regs =
        (.panic, regs)) ∧
    int64DefValue env "42" = (42, none) ∧
    (∀ e : GoError, (env.ParseDuration "42").2 = some e →
      flagField env ⟨"D", .other "time.Duration" .Int64 false, "d,42,usage", true⟩ =
        .fail (.badDefault "duration" "d" e)) ∧
    (∀ f : StructField, skipped f = false → f.Typ.implementsValue = false →
      f.Typ.Kind = .Int64 →
      (f.Typ.String = "time.Duration" →
        (∀ err, (durationDefValue env (flagOptions f.Name f.Tag).flagDefValue).2 = some err →
          flagField env f =
            .fail (.badDefault "duration" (flagOptions f.Name f.Tag).flagName err)) ∧
        (∀ v, f.Typ = .duration →
          durationDefValue env (flagOptions f.Name f.Tag).flagDefValue = (v, none) →
          flagField env f =
            .register (.DurationVar f.Name (flagOptions f.Name f.Tag).flagName v
              (flagOptions f.Name f.Tag).flagUsage))) ∧
      (f.Typ.String ≠ "time.Duration" →
        (∀ err, (int64DefValue env (flagOptions f.Name f.Tag).flagDefValue).2 = some err →
          flagField env f =
            .fail (.badDefault "int64" (flagOptions f.Name f.Tag).flagName err)) ∧
        (∀ v, f.Typ = .int64 →
          int64DefValue env (flagOptions f.Name f.Tag).flagDefValue = (v, none) →
          flagField env f =
            .register (.Int64Var f.Name (flagOptions f.Name f.Tag).flagName v
              (flagOptions f.Name f.Tag).flagUsage)))) ∧
    GoType.duration.String = "time.Duration" ∧ GoType.int64.String ≠ "time.Duration" ∧
    (∀ (name : String) (v : Int) (e : GoError),
      env.ParseDuration "42s" = (v, none) → (env.ParseDuration "42").2 = some e →
      flagField env ⟨name, .duration, "d,42s,u", true⟩ =
        .register (.DurationVar name "d" v "u") ∧
      flagField env ⟨name, .int64, "d,42s,u", true⟩ =
        .fail (.badDefault "int64" "d" .ErrSyntax) ∧
      flagField env ⟨name, .int64, "i,42,u", true⟩ = .register (.Int64Var name "i" 42 "u") ∧
      flagField env ⟨name, .duration, "i,42,u", true⟩ =
        .fail (.badDefault "duration" "i" e)) := by
  have hi42 : int64DefValue env "42" = (42, none) := by
    simp [int64DefValue, ParseInt, ParseUint]
    decide
  have hoD : flagOptions "D" "d,,usage" = ⟨"d", "", "usage"⟩ := by
    have hs : Split "d,,usage" = ["d", "", "usage"] := by decide
    have hne : ("d,,usage" : String) ≠ "" := by decide
    simp [flagOptions, hs, hne]
  have hoD2 : flagOptions "D" "d,42,usage" = ⟨"d", "42", "usage"⟩ := by
    have hs : Split "d,42,usage" = ["d", "42", "usage"] := by decide
    have hne : ("d,42,usage" : String) ≠ "" := by decide
    simp [flagOptions, hs, hne]
  have hoB : flagOptions "B" "b,42,usage" = ⟨"b", "42", "usage"⟩ := by
    have hs : Split "b,42,usage" = ["b", "42", "usage"] := by decide
    have hne : ("b,42,usage" : String) ≠ "" := by decide
    simp [flagOptions, hs, hne]
  have hstepD : flagField env ⟨"D", .other "time.Duration" .Int64 false, "d,,usage", true⟩ =
      .panic := by
    have hne : ("d,,usage" : String) ≠ "-" := by decide
    simp [flagField, flagKind, GoType.implementsValue, GoType.Kind, GoType.String, hoD, hne,
      durationDefValue]
  have hstepB : flagField env ⟨"B", .other "main.Big" .Int64 false, "b,42,usage", true⟩ =
      .panic := by
    have hne : ("b,42,usage" : String) ≠ "-" := by decide
    have hstr : ("main.Big" : String) ≠ "time.Duration" := by decide
    simp [flagField, flagKind, GoType.implementsValue, GoType.Kind, GoType.String, hoB, hne,
      hstr, hi42]
  refine ⟨by decide, ?_, ?_, hi42, ?_, ?_, by decide, by decide, ?_⟩
  · intro regs
    rw [Flag_at_field env
      (.pointer (.struct [⟨"D", .other "time.Duration" .Int64 false, "d,,usage", true⟩]))
      [] [] ⟨"D", .other "time.Duration" .Int64 false, "d,,usage", true⟩ regs regs rfl rfl,
      hstepD]
  · intro regs
    rw [Flag_at_field env
      (.pointer (.struct [⟨"B", .other "main.Big" .Int64 false, "b,42,usage", true⟩]))
      [] [] ⟨"B", .other "main.Big" .Int64 false, "b,42,usage", true⟩ regs regs rfl rfl,
      hstepB]
  · intro e he
    have hne : ("d,42,usage" : String) ≠ "-" := by decide
    have hne2 : ("42" : String) ≠ "" := by decide
    have hd : durationDefValue env "42" = ((env.ParseDuration "42").1, some e) := by
      simp only [durationDefValue, hne2, if_false]
      rw [← he]
    simp [flagField, flagKind, GoType.implementsValue, GoType.Kind, GoType.String, hoD2,
      hne, hd]
  · intro f hskip hv hk
    rw [flagField_of_not_skipped env f hskip, hv]
    simp only [Bool.false_eq_true, if_false]
    constructor
    · intro hstr
      constructor
      · intro err herr
        rcases hd : durationDefValue env (flagOptions f.Name f.Tag).flagDefValue with ⟨v, e⟩
        rw [hd] at herr
        simp only at herr
        subst herr
        simp [flagKind, hk, hstr, hd]
      · intro v ht hd
        simp [flagKind, hd, ht, GoType.Kind, GoType.String]
    · intro hstr
      constructor
      · intro err herr
        rcases hd : int64DefValue env (flagOptions f.Name f.Tag).flagDefValue with ⟨v, e⟩
        rw [hd] at herr
        simp only at herr
        subst herr
        simp [flagKind, hk, hstr, hd]
      · intro v ht hd
        simp [flagKind, hd, ht, GoType.Kind, GoType.String]
  · intro name v e hok hbad
    have h1 : flagOptions name "d,42s,u" = ⟨"d", "42s", "u"⟩ := by
      have hs : Split "d,42s,u" = ["d", "42s", "u"] := by decide
      have hne : ("d,42s,u" : String) ≠ "" := by decide
      simp [flagOptions, hs, hne]
    have h2 : flagOptions name "i,42,u" = ⟨"i", "42", "u"⟩ := by
      have hs : Split "i,42,u" = ["i", "42", "u"] := by decide
      have hne : ("i,42,u" : String) ≠ "" := by decide
      simp [flagOptions, hs, hne]
    have hne1 : ("d,42s,u" : String) ≠ "-" := by decide
    have hne2 : ("i,42,u" : String) ≠ "-" := by decide
    have hd1 : durationDefValue env "42s" = (v, none) := by
      have : ("42s" : String) ≠ "" := by decide
      simp [durationDefValue, this, hok]
    have hd2 : durationDefValue env "42" = ((env.ParseDuration "42").1, some e) := by
      have : ("42" : String) ≠ "" := by decide
      simp only [durationDefValue, this, if_false]
      rw [← hbad]
    have hi1 : int64DefValue env "42s" = (0, some .ErrSyntax) := by
      simp [int64DefValue, ParseInt, ParseUint]
      decide
    have hi2 : int64DefValue env "42" = (42, none) := by
      simp [int64DefValue, ParseInt, ParseUint]
      decide
    refine ⟨?_, ?_, ?_, ?_⟩
    · simp [flagField, flagKind, GoType.implementsValue, GoType.Kind, GoType.String, h1,
        hne1, hd1]
    · simp [flagField, flagKind, GoType.implementsValue, GoType.Kind, GoType.String, h1,
        hne1, hi1]
    · simp [flagField, flagKind, GoType.implementsValue, GoType.Kind, GoType.String, h2,
        hne2, hi2]
    · simp [flagField, flagKind, GoType.implementsValue, GoType.Kind, GoType.String, h2,
        hne2, hd2]

/-- C12, at the `time.Duration` field of the test with the tag
`duration,42s,duration value`. -/
theorem C12_lookalike_duration_panics_witness :
    skipped ⟨"T", .duration, "duration,42s,duration value", true⟩ = false ∧
    durationDefValue testEnv
      (flagOptions "T" "duration,42s,duration value").flagDefValue = (42000000000, none) ∧
    flagField testEnv ⟨"T", .duration, "duration,42s,duration value", true⟩ =
      .register (.DurationVar "T" "duration" 42000000000 "duration value") :=
  ⟨by decide, by decide,
    (((C12_lookalike_duration_panics testEnv).2.2.2.2.2.1
      ⟨"T", .duration, "duration,42s,duration value", true⟩ (by decide) rfl rfl).1
      rfl).2 42000000000 rfl (by decide) |>.trans (by decide)⟩

/-! ## Pointer type assertions -/

theorem flagKind_exact_no_panic (env : Env) (f : StructField) (o : Options)
    (h : exactType f.Typ = true) : flagKind env f o ≠ .panic := by
  obtain ⟨name, typ, tag, canSet⟩ := f
  cases typ <;> simp only [exactType, Bool.false_eq_true] at h <;>
    simp only [flagKind, GoType.Kind, GoType.String] <;>
    (repeat' split) <;> simp_all

theorem flagKind_exact_register (env : Env) (f : StructField) (o : Options)
    (h : exactType f.Typ = true) (hd : decoderError env f.Typ o.flagDefValue = none) :
    ∃ r, flagKind env f o = .register r := by
  obtain ⟨name, typ, tag, canSet⟩ := f
  cases typ <;> simp only [exactType, Bool.false_eq_true] at h <;>
    simp only [decoderError, flagKind, GoType.Kind, GoType.String] at hd ⊢ <;>
    (repeat' split) <;> simp_all

theorem flagKind_named_panic (env : Env) (f : StructField) (o : Options) (str : String)
    (k : Kind) (ht : f.Typ = .other str k false) (hk : supportedKind k = true)
    (hd : decoderError env f.Typ o.flagDefValue = none) : flagKind env f o = .panic := by
  obtain ⟨name, typ, tag, canSet⟩ := f
  simp only at ht
  subst ht
  cases k <;> simp only [supportedKind] at hk <;> first
    | (exact absurd hk (by decide))
    | (simp only [decoderError, flagKind, GoType.Kind, GoType.String] at hd ⊢
       (repeat' split) <;> simp_all)

theorem flagField_no_panic (env : Env) (f : StructField)
    (h : skipped f = false → f.Typ.implementsValue = false →
      supportedKind f.Typ.Kind = true → exactType f.Typ = true) :
    flagField env f ≠ .panic := by
  cases hs : skipped f with
  | true => rw [(flagField_skip_iff env f).2 hs]; simp
  | false =>
    rw [flagField_of_not_skipped env f hs]
    cases hv : f.Typ.implementsValue with
    | true => simp
    | false =>
      simp only [Bool.false_eq_true, if_false]
      cases hk : supportedKind f.Typ.Kind with
      | false => rw [flagKind_unsupported env f _ hk]; simp
      | true => exact flagKind_exact_no_panic env f _ (h hs hv hk)

theorem flagFields_no_panic (env : Env) (fields : List StructField)
    (h : ∀ f ∈ fields, flagField env f ≠ .panic) :
    ∀ regs : FlagSet, (flagFields env fields regs).1 = .nil ∨
      (∃ e, (flagFields env fields regs).1 = .error e) ∨
      ∃ p, (flagFields env fields regs).1 = .registryPanic p := by
  induction fields with
  | nil => intro regs; exact Or.inl rfl
  | cons f fs ih =>
    intro regs
    have hf := h f (List.mem_cons_self _ _)
    have ih2 := ih (fun g hg => h g (List.mem_cons_of_mem _ hg))
    simp only [flagFields]
    cases hstep : flagField env f with
    | skip => exact ih2 regs
    | register r =>
      simp only
      cases varPanic regs r.name with
      | none => exact ih2 _
      | some p => exact Or.inr (Or.inr ⟨p, rfl⟩)
    | fail e => exact Or.inr (Or.inl ⟨e, rfl⟩)
    | panic => exact absurd hstep hf

/-- C17, the claim as stated fails: the two `int` fields of the structure satisfy the
type precondition and ask for the same flag name `x`; the second registration call
panics in the registry, so `Flag` returns neither `nil` nor an error. -/
theorem C17_counterexample :
    structTarget (.pointer (.struct redefinedFields)) = some redefinedFields ∧
    redefinedFields.all (fun f => exactType f.Typ) = true ∧
    Flag testEnv (.pointer (.struct redefinedFields)) [] =
      (.registryPanic (.redefined "x"), [.IntVar "A" "x" 1 "a"]) := by
  refine ⟨rfl, by decide, by decide⟩

/-- C17, amended. Under a precondition on types no pointer type assertion of `Flag`
fails: when every field that is not skipped, not a `flag.Value` and of kind `bool`,
`int`, `int64`, `uint`, `uint64`, `float64` or `string` has as declared type the
predeclared type of its kind, or `time.Duration`, no step is a failed assertion, and
`Flag` returns `nil`, returns an error, or panics inside a registration call of the
registry.  The precondition is needed: for a field of a named type with one of these
kinds whose pointer is not a `flag.Value`, the step is never a registration and never the
unsupported-kind error, and it is the panic of the failed assertion whenever the decoder
accepts the default literal; so `Flag` panics on a structure with a field `L` of the
type `Level` defined as `int`. -/
theorem C17_total_under_type_precondition (env : Env) :
    (∀ (s : GoValue) (fields : List StructField) (regs : FlagSet),
      structTarget s = some fields →
      (∀ f ∈ fields, skipped f = false → f.Typ.implementsValue = false →
        supportedKind f.Typ.Kind = true → exactType f.Typ = true) →
      (∀ f ∈ fields, flagField env f ≠ .panic) ∧
      (Flag env s regs).1 ≠ .panic ∧
      ((Flag env s regs).1 = .nil ∨ (∃ e, (Flag env s regs).1 = .error e) ∨
        ∃ p, (Flag env s regs).1 = .registryPanic p)) ∧
    (∀ (f : StructField) (str : String) (k : Kind),
      f.Typ = .other str k false → supportedKind k = true → skipped f = false →
      (∀ r, flagField env f ≠ .register r) ∧
      (∀ k2 n, flagField env f ≠ .fail (.unsupportedKind k2 n)) ∧
      (decoderError env f.Typ (flagOptions f.Name f.Tag).flagDefValue = none →
        flagField env f = .panic)) ∧
    (∀ regs : FlagSet,
      Flag env (.pointer (.struct [⟨"L", .other "main.Level" .Int false, "", true⟩])) regs =
        (.panic, regs)) := by
  refine ⟨?_, ?_, ?_⟩
  · intro s fields regs hs hpre
    have hnp : ∀ f ∈ fields, flagField env f ≠ .panic :=
      fun f hf => flagField_no_panic env f (hpre f hf)
    have hout := flagFields_no_panic env fields hnp regs
    rw [← Flag_of_structTarget env s fields regs hs] at hout
    refine ⟨hnp, ?_, hout⟩
    rcases hout with h | ⟨e, h⟩ | ⟨p, h⟩ <;> rw [h] <;> simp
  · intro f str k ht hk hskip
    have hv : f.Typ.implementsValue = false := by rw [ht]; rfl
    have hstep := flagField_of_not_skipped env f hskip
    rw [hv] at hstep
    simp only [Bool.false_eq_true, if_false] at hstep
    cases hd : decoderError env f.Typ (flagOptions f.Name f.Tag).flagDefValue with
    | none =>
      have hp := flagKind_named_panic env f _ str k ht hk hd
      rw [hp] at hstep
      refine ⟨?_, ?_, fun _ => hstep⟩
      · intro r; rw [hstep]; simp
      · intro k2 n; rw [hstep]; simp
    | some err =>
      obtain ⟨what, hw⟩ := flagKind_decoderError env f _ err hd
      rw [hw] at hstep
      refine ⟨?_, ?_, fun h => by simp at h⟩
      · intro r; rw [hstep]; simp
      · intro k2 n; rw [hstep]; simp
  · intro regs
    have hstep : flagField env ⟨"L", .other "main.Level" .Int false, "", true⟩ = .panic := by
      simp [flagField, flagKind, flagOptions, GoType.implementsValue, GoType.Kind,
        intDefValue]
    rw [Flag_at_field env
      (.pointer (.struct [⟨"L", .other "main.Level" .Int false, "", true⟩])) [] []
      ⟨"L", .other "main.Level" .Int false, "", true⟩ regs regs rfl rfl, hstep]

/-- C17, amended, at the structure of the first test, whose fields have the eight
supported types. -/
theorem C17_total_under_type_precondition_witness :
    structTarget (.pointer (.struct untaggedFields)) = some untaggedFields ∧
    untaggedFields.all (fun f => exactType f.Typ) = true ∧
    (Flag testEnv (.pointer (.struct untaggedFields)) []).1 ≠ .panic ∧
    (Flag testEnv (.pointer (.struct untaggedFields)) []).1 = .nil :=
  ⟨rfl, by decide,
    ((C17_total_under_type_precondition testEnv).1 (.pointer (.struct untaggedFields))
      untaggedFields [] rfl (by decide)).2.1, by decide⟩

/-! ## Tags that start with the sentinel -/

theorem Split_dash_comma (tag : String) (rest : List Char)
    (h : tag.data = '-' :: ',' :: rest) : Split tag = "-" :: Split (String.mk rest) := by
  unfold Split
  rw [h]
  have h1 : splitComma ('-' :: ',' :: rest) = ['-'] :: splitComma rest := by
    have hc : ('-' : Char) ≠ ',' := by decide
    rw [splitComma]
    simp only [hc, if_false]
    rw [splitComma]
    simp
  rw [h1]
  rfl

theorem varPanic_dash (regs : FlagSet) :
    varPanic regs "-" = some (.beginsWithDash "-") := by
  have h : ("-" : String).data.head? = some '-' := by decide
  simp [varPanic, h]

/-- C18, the claim as stated fails: the `int` field `I` tagged `-,1,usage`, the claim's
own example, is not skipped and is not registered either: its registration call, under
the name `-`, panics in the registry, which refuses a flag name that begins with `-`.
The `bool` field `B` tagged `-,tru,usage` is not registered for another reason: the
`bool` decoder rejects `tru`, and `Flag` returns the bad-default error for the flag
`-`. -/
theorem C18_counterexample :
    skipped ⟨"I", .int, "-,1,usage", true⟩ = false ∧
    flagField testEnv ⟨"I", .int, "-,1,usage", true⟩ =
      .register (.IntVar "I" "-" 1 "usage") ∧
    Flag testEnv (.pointer (.struct [⟨"I", .int, "-,1,usage", true⟩])) [] =
      (.registryPanic (.beginsWithDash "-"), []) ∧
    skipped ⟨"B", .bool, "-,tru,usage", true⟩ = false ∧
    supportedKind (GoType.bool).Kind = true ∧
    flagField testEnv ⟨"B", .bool, "-,tru,usage", true⟩ =
      .fail (.badDefault "boolean" "-" .ErrSyntax) ∧
    Flag testEnv (.pointer (.struct [⟨"B", .bool, "-,tru,usage", true⟩])) [] =
      (.error (.badDefault "boolean" "-" .ErrSyntax), []) := by
  refine ⟨by decide, by decide, by decide, by decide, by decide, by decide, by decide⟩

/-- C18, amended. The sentinel is matched against the whole tag: a settable field whose
tag starts with `-,` is not skipped; its flag name is `-`, its default literal is the
first of the remaining segments and its usage the second, if any.  A literal the decoder
rejects gives the bad-default error for the flag `-`.  When the pointer of the field is a
`flag.Value`, and when its declared type is one of the supported types and the decoder
accepts the default literal, the step is a registration call under the name `-` that
carries that default and usage; the registry refuses the name `-`, so `Flag`, reaching
the field, panics in that call and the field is not registered. -/
theorem C18_dash_comma_tag_not_skipped (env : Env) (f : StructField) (rest : List Char)
    (hset : f.CanSet = true) (htag : f.Tag.data = '-' :: ',' :: rest) :
    skipped f = false ∧ flagField env f ≠ .skip ∧
    (flagOptions f.Name f.Tag).flagName = "-" ∧
    (Split (String.mk rest))[0]? = some (flagOptions f.Name f.Tag).flagDefValue ∧
    (flagOptions f.Name f.Tag).flagUsage = (Split (String.mk rest)).getD 1 "" ∧
    (∀ r, flagField env f = .register r → r.name = "-" ∧ Carries env f r) ∧
    (f.Typ.implementsValue = true →
      flagField env f =
        .register (.Var f.Name "-" ((Split (String.mk rest)).getD 1 ""))) ∧
    (exactType f.Typ = true →
      decoderError env f.Typ (flagOptions f.Name f.Tag).flagDefValue = none →
      ∃ r, flagField env f = .register r ∧ r.name = "-" ∧ Carries env f r) ∧
    (∀ err, f.Typ.implementsValue = false →
      decoderError env f.Typ (flagOptions f.Name f.Tag).flagDefValue = some err →
      ∃ what, flagField env f = .fail (.badDefault what "-" err)) ∧
    (∀ (s : GoValue) (pre post : List StructField) (regs regs1 : FlagSet)
        (r : Registration),
      structTarget s = some (pre ++ f :: post) →
      flagFields env pre regs = (.nil, regs1) → flagField env f = .register r →
      Flag env s regs = (.registryPanic (.beginsWithDash "-"), regs1)) := by
  have hne : f.Tag ≠ "-" := by
    intro hc
    rw [hc] at htag
    simp at htag
  have hne2 : f.Tag ≠ "" := by
    intro hc
    rw [hc] at htag
    simp at htag
  have hskip : skipped f = false := by simp [skipped, hset, hne]
  have hsplit := Split_dash_comma f.Tag rest htag
  have hpos := Split_length_pos (String.mk rest)
  have hname : (flagOptions f.Name f.Tag).flagName = "-" := by
    unfold flagOptions
    simp only [hne2, ne_eq, not_false_eq_true, if_true, hsplit]
    rcases hs : Split (String.mk rest) with _ | ⟨a, _ | ⟨b, r⟩⟩
    · rw [hs] at hpos; simp at hpos
    · simp
    · simp
  have hdef : (Split (String.mk rest))[0]? = some (flagOptions f.Name f.Tag).flagDefValue := by
    unfold flagOptions
    simp only [hne2, ne_eq, not_false_eq_true, if_true, hsplit]
    rcases hs : Split (String.mk rest) with _ | ⟨a, _ | ⟨b, r⟩⟩
    · rw [hs] at hpos; simp at hpos
    · simp
    · simp
  have husage : (flagOptions f.Name f.Tag).flagUsage = (Split (String.mk rest)).getD 1 "" := by
    unfold flagOptions
    simp only [hne2, ne_eq, not_false_eq_true, if_true, hsplit]
    rcases hs : Split (String.mk rest) with _ | ⟨a, _ | ⟨b, r⟩⟩
    · rw [hs] at hpos; simp at hpos
    · simp
    · simp
  have hreg : ∀ r, flagField env f = .register r → r.name = "-" ∧ Carries env f r := by
    intro r hr
    have hc := flagField_register_carries env f r hr
    exact ⟨by rw [hc.2.1, hname], hc⟩
  have hstep := flagField_of_not_skipped env f hskip
  refine ⟨hskip, ?_, hname, hdef, husage, hreg, ?_, ?_, ?_, ?_⟩
  · intro hc
    rw [(flagField_skip_iff env f).1 hc] at hskip
    exact Bool.noConfusion hskip
  · intro hv
    rw [hstep, hv, hname, husage]
    simp
  · intro hex hd
    have hv : f.Typ.implementsValue = false := by
      cases hT : f.Typ <;> simp_all [exactType, GoType.implementsValue]
    obtain ⟨r, hr⟩ := flagKind_exact_register env f (flagOptions f.Name f.Tag) hex hd
    have hfr : flagField env f = .register r := by
      rw [hstep, hv]
      simpa using hr
    exact ⟨r, hfr, (hreg r hfr).1, (hreg r hfr).2⟩
  · intro err hv hd
    obtain ⟨what, hw⟩ := flagKind_decoderError env f (flagOptions f.Name f.Tag) err hd
    refine ⟨what, ?_⟩
    rw [hstep, hv, ← hname]
    simpa using hw
  · intro s pre post regs regs1 r hs hpre hr
    rw [Flag_at_field env s pre post f regs regs1 hs hpre, hr]
    simp only [(hreg r hr).1, varPanic_dash]

/-- C18, amended, at an `int` field tagged `-,1,usage`. -/
theorem C18_dash_comma_tag_not_skipped_witness :
    ("-,1,usage" : String).data = '-' :: ',' :: ['1', ',', 'u', 's', 'a', 'g', 'e'] ∧
    flagField testEnv ⟨"I", .int, "-,1,usage", true⟩ =
      .register (.IntVar "I" "-" 1 "usage") ∧
    skipped ⟨"I", .int, "-,1,usage", true⟩ = false ∧
    (flagOptions "I" "-,1,usage").flagName = "-" ∧
    Flag testEnv (.pointer (.struct [⟨"S", .string, "", true⟩, ⟨"I", .int, "-,1,usage", true⟩]))
      [] = (.registryPanic (.beginsWithDash "-"), [.StringVar "S" "S" "" ""]) :=
  have h := C18_dash_comma_tag_not_skipped testEnv ⟨"I", .int, "-,1,usage", true⟩
    ['1', ',', 'u', 's', 'a', 'g', 'e'] rfl (by decide)
  ⟨by decide, by decide, h.1, h.2.2.1,
    h.2.2.2.2.2.2.2.2.2
      (.pointer (.struct [⟨"S", .string, "", true⟩, ⟨"I", .int, "-,1,usage", true⟩]))
      [⟨"S", .string, "", true⟩] [] [] [.StringVar "S" "S" "" ""]
      (.IntVar "I" "-" 1 "usage") rfl (by decide) (by decide)⟩

/-! ## Unsigned decimal literals -/

theorem digitVal_of_isDecimal (c : Char) (h : isDecimal c = true) :
    digitVal c = some (c.toNat - 48) ∧ c.toNat - 48 < 10 := by
  simp only [isDecimal, Bool.and_eq_true, decide_eq_true_eq] at h
  constructor
  · simp [digitVal, h.1, h.2]
  · omega

theorem isDecimal_of_digitVal (c : Char) (d : Nat) (h : digitVal c = some d)
    (hd : d < 10) : isDecimal c = true := by
  unfold digitVal at h
  split_ifs at h with h1 h2 h3
  · simp [isDecimal, h1.1, h1.2]
  · simp only [Option.some.injEq] at h
    omega
  · simp only [Option.some.injEq] at h
    omega

theorem decimalValueFrom_nil (n : Nat) : decimalValueFrom n [] = n := rfl

theorem decimalValueFrom_cons (n : Nat) (c : Char) (cs : List Char) :
    decimalValueFrom n (c :: cs) = decimalValueFrom (n * 10 + (c.toNat - 48)) cs := rfl

theorem decimalValueFrom_ge (cs : List Char) : ∀ n, n ≤ decimalValueFrom n cs := by
  induction cs with
  | nil => intro n; exact Nat.le_refl n
  | cons c cs ih =>
    intro n
    have h1 := ih (n * 10 + (c.toNat - 48))
    rw [decimalValueFrom_cons]
    omega

theorem cutoff10_eq : cutoff10 = 1844674407370955162 := by decide

/-- The digit loop on a string of decimal digits: the number written when it fits the
width, the maximum of the width and a range error when it does not. -/
theorem parseUintLoop_digits (maxVal : Nat) (hmax : maxVal < 18446744073709551616)
    (cs : List Char) :
    ∀ n, (∀ c ∈ cs, isDecimal c = true) → n ≤ maxVal →
      parseUintLoop maxVal cs n =
        if decimalValueFrom n cs ≤ maxVal then (decimalValueFrom n cs, none)
        else (maxVal, some .ErrRange) := by
  induction cs with
  | nil =>
    intro n _ hn
    simp [parseUintLoop, decimalValueFrom_nil, hn]
  | cons c cs ih =>
    intro n hall hn
    have hc := digitVal_of_isDecimal c (hall c (List.mem_cons_self _ _))
    have hrest : ∀ c2 ∈ cs, isDecimal c2 = true :=
      fun c2 h2 => hall c2 (List.mem_cons_of_mem _ h2)
    have hge := decimalValueFrom_ge cs (n * 10 + (c.toNat - 48))
    have hd : ¬ (c.toNat - 48 ≥ 10) := by omega
    simp only [parseUintLoop, hc.1, decimalValueFrom_cons, hd, if_false, cutoff10_eq]
    have hpow : (2 : Nat) ^ 64 = 18446744073709551616 := by norm_num
    rw [hpow]
    by_cases h1 : n ≥ 1844674407370955162
    · have hbig : ¬ decimalValueFrom (n * 10 + (c.toNat - 48)) cs ≤ maxVal := by omega
      simp [h1, hbig]
    · simp only [h1, if_false]
      by_cases h2 : (n * 10 + (c.toNat - 48)) % 18446744073709551616 < n * 10 ∨
          (n * 10 + (c.toNat - 48)) % 18446744073709551616 > maxVal
      · have hbig : ¬ decimalValueFrom (n * 10 + (c.toNat - 48)) cs ≤ maxVal := by omega
        simp [h2, hbig]
      · have hmod : (n * 10 + (c.toNat - 48)) % 18446744073709551616 =
            n * 10 + (c.toNat - 48) := by omega
        simp only [h2, if_false]
        rw [hmod]
        exact ih _ hrest (by omega)

/-- The digit loop on a string with a character that is not a decimal digit: an
error. -/
theorem parseUintLoop_not_decimal (maxVal : Nat) (cs : List Char) :
    ∀ n, (∃ c ∈ cs, isDecimal c = false) →
      ∃ err, (parseUintLoop maxVal cs n).2 = some err := by
  induction cs with
  | nil => intro n h; simp at h
  | cons c cs ih =>
    intro n h
    simp only [parseUintLoop]
    cases hdv : digitVal c with
    | none => exact ⟨_, rfl⟩
    | some d =>
      simp only
      by_cases hd : d ≥ 10
      · simp [hd]
      · simp only [hd, if_false]
        have hdec := isDecimal_of_digitVal c d hdv (by omega)
        have hrest : ∃ c2 ∈ cs, isDecimal c2 = false := by
          obtain ⟨c2, hmem, hc2⟩ := h
          rcases List.mem_cons.1 hmem with heq | hin
          · subst heq
            rw [hdec] at hc2
            exact Bool.noConfusion hc2
          · exact ⟨c2, hin, hc2⟩
        split_ifs
        · exact ⟨_, rfl⟩
        · exact ⟨_, rfl⟩
        · exact ih _ hrest

theorem uintDefValue_eq_loop (env : Env) (str : String) (h : str ≠ "") :
    uintDefValue env str =
      ((parseUintLoop (2 ^ env.IntSize - 1) str.data 0).1 % 2 ^ env.IntSize,
        (parseUintLoop (2 ^ env.IntSize - 1) str.data 0).2) := by
  have hle : ¬ env.IntSize > 64 := by
    rcases env.IntSize_valid with h32 | h64 <;> omega
  simp [uintDefValue, ParseUint, h, hle]

/-- C16, the claim as stated fails: the literal `18446744073709551616` is a string of
decimal digits whose value is 2 to the power 64; on a platform of width 64 the claim
gives its truncation, `0`, without error, and `uintDefValue` gives the maximum of the
width with a range error. -/
theorem C16_counterexample :
    ("18446744073709551616" : String).data.all isDecimal = true ∧
    decimalValue ("18446744073709551616" : String).data = 2 ^ 64 ∧
    testEnv.IntSize = 64 ∧
    uintDefValue testEnv "18446744073709551616" =
      (18446744073709551615, some .ErrRange) ∧
    uintDefValue testEnv "18446744073709551616" ≠
      (decimalValue ("18446744073709551616" : String).data % 2 ^ testEnv.IntSize, none) := by
  refine ⟨by decide, by decide, rfl, by decide, by decide⟩

/-- C16, amended. On a non-empty literal of decimal digits with value `n`, and with `w`
the native width, `uintDefValue` returns `n` without error when `n` is below 2 to the
power `w`, and the maximum of the width with a range error otherwise: it does not
truncate.  On a literal with a character that is not a decimal digit (a sign, a letter as
in `42x`, a space) it returns an error. -/
theorem C16_uintDefValue_decimal (env : Env) (str : String) (hne : str ≠ "") :
    ((∀ c ∈ str.data, isDecimal c = true) → decimalValue str.data < 2 ^ env.IntSize →
      uintDefValue env str = (decimalValue str.data, none)) ∧
    ((∀ c ∈ str.data, isDecimal c = true) → 2 ^ env.IntSize ≤ decimalValue str.data →
      uintDefValue env str = (2 ^ env.IntSize - 1, some .ErrRange)) ∧
    ((∃ c ∈ str.data, isDecimal c = false) → ∃ err, (uintDefValue env str).2 = some err) ∧
    (∃ err, (uintDefValue env "42x").2 = some err) ∧
    (∃ err, (uintDefValue env "+42").2 = some err) ∧
    (∃ err, (uintDefValue env "-42").2 = some err) ∧
    (∃ err, (uintDefValue env " 42").2 = some err) := by
  have hw : (2 : Nat) ^ env.IntSize - 1 < 18446744073709551616 ∧ 0 < 2 ^ env.IntSize := by
    rcases env.IntSize_valid with h | h <;> rw [h] <;> norm_num
  have hnd : ∀ (t : String), t ≠ "" → (∃ c ∈ t.data, isDecimal c = false) →
      ∃ err, (uintDefValue env t).2 = some err := by
    intro t ht hex
    rw [uintDefValue_eq_loop env t ht]
    exact parseUintLoop_not_decimal _ t.data 0 hex
  refine ⟨?_, ?_, hnd str hne, ?_, ?_, ?_, ?_⟩
  · intro hall hlt
    rw [uintDefValue_eq_loop env str hne,
      parseUintLoop_digits _ hw.1 str.data 0 hall (Nat.zero_le _)]
    have hfit : decimalValueFrom 0 str.data ≤ 2 ^ env.IntSize - 1 := by
      unfold decimalValue at hlt
      omega
    simp only [hfit, if_true]
    unfold decimalValue at hlt ⊢
    rw [Nat.mod_eq_of_lt hlt]
  · intro hall hge
    rw [uintDefValue_eq_loop env str hne,
      parseUintLoop_digits _ hw.1 str.data 0 hall (Nat.zero_le _)]
    have hfit : ¬ decimalValueFrom 0 str.data ≤ 2 ^ env.IntSize - 1 := by
      unfold decimalValue at hge
      omega
    simp only [hfit, if_false]
    rw [Nat.mod_eq_of_lt (by omega)]
  · exact hnd "42x" (by decide) ⟨'x', by decide, by decide⟩
  · exact hnd "+42" (by decide) ⟨'+', by decide, by decide⟩
  · exact hnd "-42" (by decide) ⟨'-', by decide, by decide⟩
  · exact hnd " 42" (by decide) ⟨' ', by decide, by decide⟩

/-- C16, amended, at the literal `42` of the test. -/
theorem C16_uintDefValue_decimal_witness :
    ("42" : String) ≠ "" ∧ ("42" : String).data.all isDecimal = true ∧
    decimalValue ("42" : String).data < 2 ^ testEnv.IntSize ∧
    uintDefValue testEnv "42" = (decimalValue ("42" : String).data, none) ∧
    decimalValue ("42" : String).data = 42 :=
  ⟨by decide, by decide, by decide,
    (C16_uintDefValue_decimal testEnv "42" (by decide)).1 (by decide) (by decide),
    by decide⟩


end Flagger
